import Mathlib

/-!
Verification development for the Remote-Job-Aggregator pipeline (src/app.py).

The Python source is shallowly embedded: pure helpers (`categorize_job`,
`generate_job_id`, `parse_iso_datetime`) become Lean functions; each provider
adapter becomes a function from an abstract HTTP outcome to
`Except PyExc (List Job)`, where `PyExc` models the Python exceptions that can
escape the adapter (everything after the `try/except` around the HTTP call is
unprotected in the source); `normalize_jobs` sequences the six adapters, then
deduplicates, sorts and truncates.

Python library functions used by the source are modelled explicitly:
`str.lower`/`str.strip` on the ASCII fragment, `hashlib.md5` in full,
`datetime.fromisoformat`/`datetime.isoformat` on the ISO-8601 grammar the
pipeline produces and consumes, dict/list/str truthiness, `dict.get`,
indexing, iteration and `str.join`.
-/

set_option maxRecDepth 10000

namespace JobAgg

/-! ### Python string primitives (ASCII fragment)

`str.strip()` removes leading/trailing whitespace; `str.lower()` lower-cases.
The ASCII behaviour modelled here agrees with CPython on every string the
claims touch. -/

def pySpace (c : Char) : Bool :=
  c = ' ' || c = '\t' || c = '\n' || c = '\r' || c = Char.ofNat 11 || c = Char.ofNat 12

def pyStripList (l : List Char) : List Char :=
  ((l.dropWhile pySpace).reverse.dropWhile pySpace).reverse

def pyStripStr (s : String) : String := String.mk (pyStripList s.data)

def charLower (c : Char) : Char :=
  if 'A' ≤ c ∧ c ≤ 'Z' then Char.ofNat (c.toNat + 32) else c

def pyLowerList (l : List Char) : List Char := l.map charLower

def pyLowerStr (s : String) : String := String.mk (pyLowerList s.data)

/-- Python's `needle in hay` substring test: `listPrefixB n h` is "n is a
prefix of h". -/
def listPrefixB : List Char → List Char → Bool
  | [], _ => true
  | _ :: _, [] => false
  | a :: as, b :: bs => a = b && listPrefixB as bs

def listInfixB (n : List Char) : List Char → Bool
  | [] => listPrefixB n []
  | c :: cs => listPrefixB n (c :: cs) || listInfixB n cs

def pyInStr (needle hay : String) : Bool := listInfixB needle.data hay.data

/-! ### `categorize_job` (src/app.py lines 43-64) -/

def categorizeJob (title : String) : String :=
  let t := pyLowerStr title
  if pyInStr "intern" t || pyInStr "internship" t then "Internship"
  else if pyInStr "data" t || pyInStr "analyst" t then "Data Science"
  else if pyInStr "ai" t || pyInStr "ml" t || pyInStr "machine learning" t then "AI/ML"
  else "Software Engineering"

/-! ### MD5 (`hashlib.md5`, RFC 1321), used by `generate_job_id`

Bytes are `Nat < 256`, words are `Nat < 2^32`; overflow is explicit `% 2^32`.
The implementation is validated below against the standard test vectors. -/

def utf8Bytes : List Char → List Nat
  | [] => []
  | c :: cs =>
    let n := c.toNat
    (if n < 128 then [n]
     else if n < 2048 then [192 + n / 64, 128 + n % 64]
     else if n < 65536 then [224 + n / 4096, 128 + n / 64 % 64, 128 + n % 64]
     else [240 + n / 262144, 128 + n / 4096 % 64, 128 + n / 64 % 64, 128 + n % 64]) ++
    utf8Bytes cs

def md5K : List Nat :=
  [0xd76aa478, 0xe8c7b756, 0x242070db, 0xc1bdceee,
   0xf57c0faf, 0x4787c62a, 0xa8304613, 0xfd469501,
   0x698098d8, 0x8b44f7af, 0xffff5bb1, 0x895cd7be,
   0x6b901122, 0xfd987193, 0xa679438e, 0x49b40821,
   0xf61e2562, 0xc040b340, 0x265e5a51, 0xe9b6c7aa,
   0xd62f105d, 0x02441453, 0xd8a1e681, 0xe7d3fbc8,
   0x21e1cde6, 0xc33707d6, 0xf4d50d87, 0x455a14ed,
   0xa9e3e905, 0xfcefa3f8, 0x676f02d9, 0x8d2a4c8a,
   0xfffa3942, 0x8771f681, 0x6d9d6122, 0xfde5380c,
   0xa4beea44, 0x4bdecfa9, 0xf6bb4b60, 0xbebfbc70,
   0x289b7ec6, 0xeaa127fa, 0xd4ef3085, 0x04881d05,
   0xd9d4d039, 0xe6db99e5, 0x1fa27cf8, 0xc4ac5665,
   0xf4292244, 0x432aff97, 0xab9423a7, 0xfc93a039,
   0x655b59c3, 0x8f0ccc92, 0xffeff47d, 0x85845dd1,
   0x6fa87e4f, 0xfe2ce6e0, 0xa3014314, 0x4e0811a1,
   0xf7537e82, 0xbd3af235, 0x2ad7d2bb, 0xeb86d391]

def md5S : List Nat :=
  [7, 12, 17, 22, 7, 12, 17, 22, 7, 12, 17, 22, 7, 12, 17, 22,
   5, 9, 14, 20, 5, 9, 14, 20, 5, 9, 14, 20, 5, 9, 14, 20,
   4, 11, 16, 23, 4, 11, 16, 23, 4, 11, 16, 23, 4, 11, 16, 23,
   6, 10, 15, 21, 6, 10, 15, 21, 6, 10, 15, 21, 6, 10, 15, 21]

def le64 (n : Nat) : List Nat :=
  [n % 256, n / 256 % 256, n / 256 ^ 2 % 256, n / 256 ^ 3 % 256,
   n / 256 ^ 4 % 256, n / 256 ^ 5 % 256, n / 256 ^ 6 % 256, n / 256 ^ 7 % 256]

def md5Pad (msg : List Nat) : List Nat :=
  msg ++ [128] ++ List.replicate ((119 - msg.length % 64) % 64) 0 ++
    le64 (8 * msg.length % 2 ^ 64)

def leWord (b : List Nat) : Nat :=
  match b with
  | [b0, b1, b2, b3] => b0 + 256 * b1 + 65536 * b2 + 16777216 * b3
  | _ => 0

def words16 (b : List Nat) : List Nat :=
  (List.range 16).map fun i => leWord ((b.drop (4 * i)).take 4)

def md5BlocksAux : Nat → List Nat → List (List Nat)
  | 0, _ => []
  | fuel + 1, bytes =>
    if bytes.isEmpty then []
    else words16 (bytes.take 64) :: md5BlocksAux fuel (bytes.drop 64)

def md5Blocks (bytes : List Nat) : List (List Nat) := md5BlocksAux bytes.length bytes

def m32 (x : Nat) : Nat := x % 4294967296

def rotl32 (x s : Nat) : Nat := m32 (x * 2 ^ s + x / 2 ^ (32 - s))

def md5F (r b c d : Nat) : Nat :=
  if r < 16 then Nat.lor (Nat.land b c) (Nat.land (4294967295 - b) d)
  else if r < 32 then Nat.lor (Nat.land b d) (Nat.land c (4294967295 - d))
  else if r < 48 then Nat.xor b (Nat.xor c d)
  else Nat.xor c (Nat.lor b (4294967295 - d))

def md5G (r : Nat) : Nat :=
  if r < 16 then r
  else if r < 32 then (5 * r + 1) % 16
  else if r < 48 then (3 * r + 5) % 16
  else 7 * r % 16

def md5Step (w : List Nat) (st : Nat × Nat × Nat × Nat) (r : Nat) : Nat × Nat × Nat × Nat :=
  let f := m32 (md5F r st.2.1 st.2.2.1 st.2.2.2 + st.1 + md5K.getD r 0 + w.getD (md5G r) 0)
  (st.2.2.2, m32 (st.2.1 + rotl32 f (md5S.getD r 0)), st.2.1, st.2.2.1)

def md5Block (st : Nat × Nat × Nat × Nat) (w : List Nat) : Nat × Nat × Nat × Nat :=
  let e := (List.range 64).foldl (md5Step w) st
  (m32 (st.1 + e.1), m32 (st.2.1 + e.2.1), m32 (st.2.2.1 + e.2.2.1), m32 (st.2.2.2 + e.2.2.2))

def md5Init : Nat × Nat × Nat × Nat := (0x67452301, 0xefcdab89, 0x98badcfe, 0x10325476)

def md5Digest (msg : List Nat) : Nat × Nat × Nat × Nat :=
  (md5Blocks (md5Pad msg)).foldl md5Block md5Init

def hexDigit (n : Nat) : Char := if n < 10 then Char.ofNat (48 + n) else Char.ofNat (87 + n)

def byteHex (b : Nat) : List Char := [hexDigit (b / 16 % 16), hexDigit (b % 16)]

def wordHexLE (w : Nat) : List Char :=
  byteHex (w % 256) ++ byteHex (w / 256 % 256) ++ byteHex (w / 65536 % 256) ++
    byteHex (w / 16777216 % 256)

def md5HexChars (msg : List Nat) : List Char :=
  wordHexLE (md5Digest msg).1 ++ wordHexLE (md5Digest msg).2.1 ++
    wordHexLE (md5Digest msg).2.2.1 ++ wordHexLE (md5Digest msg).2.2.2

def md5HexString (s : String) : String := String.mk (md5HexChars (utf8Bytes s.data))

/-! ### `generate_job_id` (src/app.py lines 82-89)

`combined = f"{source}:{title}:{company}".lower().strip()` — the whole joined
string is lower-cased and then stripped; finally
`hashlib.md5(combined.encode()).hexdigest()[:16]`. -/

def generateJobId (title company source : String) : String :=
  String.mk ((md5HexChars (utf8Bytes
    (pyStripStr (pyLowerStr (source ++ ":" ++ title ++ ":" ++ company))).data)).take 16)

/-! ### `datetime` model

`PyDatetime` models `datetime.datetime`: a naive value has `tzMinutes = none`,
an aware value carries its UTC offset in whole minutes (the only offsets this
pipeline can produce, since the embedded `fromisoformat` below accepts
`±HH:MM` offsets). `validB` captures the constructor's range checks. -/

structure PyDatetime where
  year : Nat
  month : Nat
  day : Nat
  hour : Nat
  minute : Nat
  second : Nat
  microsecond : Nat
  tzMinutes : Option Int
deriving DecidableEq, Repr, Inhabited

def daysInMonth (y m : Nat) : Nat :=
  if m = 2 then (if y % 4 = 0 ∧ (y % 100 ≠ 0 ∨ y % 400 = 0) then 29 else 28)
  else if m = 4 ∨ m = 6 ∨ m = 9 ∨ m = 11 then 30
  else 31

def validB (dt : PyDatetime) : Bool :=
  decide (1 ≤ dt.year) && decide (dt.year ≤ 9999) &&
  decide (1 ≤ dt.month) && decide (dt.month ≤ 12) &&
  decide (1 ≤ dt.day) && decide (dt.day ≤ daysInMonth dt.year dt.month) &&
  decide (dt.hour ≤ 23) && decide (dt.minute ≤ 59) && decide (dt.second ≤ 59) &&
  decide (dt.microsecond ≤ 999999) &&
  (match dt.tzMinutes with
   | none => true
   | some off => decide (off.natAbs ≤ 1439))

def digitChar (n : Nat) : Char := Char.ofNat (48 + n % 10)

def twoDig (n : Nat) : List Char := [digitChar (n / 10), digitChar n]

def fourDig (n : Nat) : List Char :=
  [digitChar (n / 1000), digitChar (n / 100), digitChar (n / 10), digitChar n]

def sixDig (n : Nat) : List Char :=
  [digitChar (n / 100000), digitChar (n / 10000), digitChar (n / 1000),
   digitChar (n / 100), digitChar (n / 10), digitChar n]

def offsetChars : Option Int → List Char
  | none => []
  | some off =>
    (if off < 0 then '-' else '+') :: (twoDig (off.natAbs / 60) ++ ':' :: twoDig (off.natAbs % 60))

/-- `datetime.isoformat()`: `YYYY-MM-DDTHH:MM:SS[.ffffff][±HH:MM]`; the
fractional part is printed only when `microsecond ≠ 0`. -/
def isoformatChars (dt : PyDatetime) : List Char :=
  fourDig dt.year ++ '-' :: twoDig dt.month ++ '-' :: twoDig dt.day ++
  'T' :: twoDig dt.hour ++ ':' :: twoDig dt.minute ++ ':' :: twoDig dt.second ++
  (if dt.microsecond = 0 then [] else '.' :: sixDig dt.microsecond) ++
  offsetChars dt.tzMinutes

def isoformat (dt : PyDatetime) : String := String.mk (isoformatChars dt)

/-! `datetime.fromisoformat` model: `YYYY-MM-DD[{T| }HH:MM[:SS[.f{1,6}]][±HH:MM]]`,
with the constructor's range checks. This is the common core of the CPython
grammar (3.11 accepts a few more variants, none producible by this pipeline),
and it accepts every string `isoformat` prints. -/

def isDigitC (c : Char) : Bool := 48 ≤ c.toNat && c.toNat ≤ 57

def dVal (c : Char) : Nat := c.toNat - 48

def read2 : List Char → Option (Nat × List Char)
  | c1 :: c2 :: r =>
    if isDigitC c1 && isDigitC c2 then some (10 * dVal c1 + dVal c2, r) else none
  | _ => none

def read4 : List Char → Option (Nat × List Char)
  | c1 :: c2 :: c3 :: c4 :: r =>
    if isDigitC c1 && isDigitC c2 && isDigitC c3 && isDigitC c4 then
      some (1000 * dVal c1 + 100 * dVal c2 + 10 * dVal c3 + dVal c4, r)
    else none
  | _ => none

def expectChar (c : Char) : List Char → Option (List Char)
  | d :: r => if d = c then some r else none
  | [] => none

def takeDigits : Nat → List Char → List Char × List Char
  | 0, cs => ([], cs)
  | _ + 1, [] => ([], [])
  | n + 1, c :: cs =>
    if isDigitC c then ((c :: (takeDigits n cs).1), (takeDigits n cs).2) else ([], c :: cs)

def digitsVal (ds : List Char) : Nat := ds.foldl (fun a c => 10 * a + dVal c) 0

def readFrac (cs : List Char) : Option (Nat × List Char) :=
  if (takeDigits 6 cs).1.isEmpty then none
  else some (digitsVal (takeDigits 6 cs).1 * 10 ^ (6 - (takeDigits 6 cs).1.length),
             (takeDigits 6 cs).2)

def readOffset : List Char → Option (Option Int)
  | [] => some none
  | c :: r =>
    if c = '+' ∨ c = '-' then
      (read2 r).bind fun ph =>
      (expectChar ':' ph.2).bind fun r2 =>
      (read2 r2).bind fun pm =>
      if pm.2.isEmpty ∧ ph.1 ≤ 23 ∧ pm.1 ≤ 59 then
        some (some (if c = '-' then -((ph.1 * 60 + pm.1 : Nat) : Int)
                    else ((ph.1 * 60 + pm.1 : Nat) : Int)))
      else none
    else none

def parseTimePart (cs : List Char) : Option (Nat × Nat × Nat × Nat × Option Int) :=
  (read2 cs).bind fun ph =>
  (expectChar ':' ph.2).bind fun r1 =>
  (read2 r1).bind fun pmin =>
  match expectChar ':' pmin.2 with
  | some r2 =>
    (read2 r2).bind fun ps =>
    (match expectChar '.' ps.2 with
     | some r3 =>
       (readFrac r3).bind fun pf =>
       (readOffset pf.2).map fun tz => (ph.1, pmin.1, ps.1, pf.1, tz)
     | none =>
       (readOffset ps.2).map fun tz => (ph.1, pmin.1, ps.1, 0, tz))
  | none =>
    (readOffset pmin.2).map fun tz => (ph.1, pmin.1, 0, 0, tz)

def mkValidDT (y mo d h mi s us : Nat) (tz : Option Int) : Option PyDatetime :=
  if validB ⟨y, mo, d, h, mi, s, us, tz⟩ then some ⟨y, mo, d, h, mi, s, us, tz⟩ else none

def parseIso (cs : List Char) : Option PyDatetime :=
  (read4 cs).bind fun py =>
  (expectChar '-' py.2).bind fun r1 =>
  (read2 r1).bind fun pmo =>
  (expectChar '-' pmo.2).bind fun r2 =>
  (read2 r2).bind fun pd =>
  match pd.2 with
  | [] => mkValidDT py.1 pmo.1 pd.1 0 0 0 0 none
  | sep :: rest =>
    if sep = 'T' ∨ sep = ' ' then
      (parseTimePart rest).bind fun q =>
      mkValidDT py.1 pmo.1 pd.1 q.1 q.2.1 q.2.2.1 q.2.2.2.1 q.2.2.2.2
    else none

/-- `value.replace("Z", "+00:00")` — CPython replaces every occurrence of the
single-character needle `"Z"`. -/
def plusZeroOffset : List Char := ['+', '0', '0', ':', '0', '0']

def replaceZ : List Char → List Char
  | [] => []
  | c :: r => if c = 'Z' then plusZeroOffset ++ replaceZ r else c :: replaceZ r

/-- The body of `parse_iso_datetime` for a non-empty string input
(src/app.py lines 104-111): replace `"Z"`, parse, isoformat; any failure
inside the `try` yields `""`. -/
def parseIsoNormalize (s : String) : String :=
  match parseIso (replaceZ s.data) with
  | some dt => isoformat dt
  | none => ""

/-! ### JSON values and Python dynamic semantics

`JValue` is the result of `response.json()`. `PyExc` enumerates the exception
classes that the unprotected post-`try` code of an adapter can raise.
JSON numbers are modelled as integers: no claim involves a fractional number,
and truthiness/attribute behaviour is identical. -/

inductive JValue where
  | null
  | bool (b : Bool)
  | num (n : Int)
  | str (s : String)
  | arr (elems : List JValue)
  | obj (fields : List (String × JValue))
deriving Repr, Inhabited

inductive PyExc where
  | attributeError
  | typeError
  | indexError
  | keyError
  | jsonDecodeError
deriving DecidableEq, Repr

/-- Python truthiness: `None`, `False`, `0`, `""`, `[]`, `{}` are falsy. -/
def truthy : JValue → Bool
  | .null => false
  | .bool b => b
  | .num n => decide (n ≠ 0)
  | .str s => decide (s ≠ "")
  | .arr l => !l.isEmpty
  | .obj l => !l.isEmpty

/-- `a or b` on already-evaluated operands. -/
def pyOr (a b : JValue) : JValue := if truthy a then a else b

def jLookup : List (String × JValue) → String → Option JValue
  | [], _ => none
  | (k, v) :: r, key => if k = key then some v else jLookup r key

/-- `v.get(key, dflt)` — raises `AttributeError` unless `v` is a dict. -/
def dictGetD (v : JValue) (key : String) (dflt : JValue) : Except PyExc JValue :=
  match v with
  | .obj fs => .ok ((jLookup fs key).getD dflt)
  | _ => .error .attributeError

def dictGet (v : JValue) (key : String) : Except PyExc JValue := dictGetD v key .null

/-- `v.strip()` — raises `AttributeError` unless `v` is a string. -/
def jStrip : JValue → Except PyExc String
  | .str s => .ok (pyStripStr s)
  | _ => .error .attributeError

/-- `v[0]` — first list element, first character of a string, `KeyError` on a
dict (no key `0`), `TypeError` otherwise. -/
def pyIndex0 : JValue → Except PyExc JValue
  | .arr (x :: _) => .ok x
  | .arr [] => .error .indexError
  | .str s =>
    match s.data with
    | c :: _ => .ok (.str (String.mk [c]))
    | [] => .error .indexError
  | .obj _ => .error .keyError
  | _ => .error .typeError

/-- `for item in v` — lists yield elements, strings characters, dicts keys;
everything else raises `TypeError`. -/
def pyIter : JValue → Except PyExc (List JValue)
  | .arr l => .ok l
  | .str s => .ok (s.data.map fun c => .str (String.mk [c]))
  | .obj fs => .ok (fs.map fun p => .str p.1)
  | _ => .error .typeError

/-- `", ".join(parts)` — raises `TypeError` on a non-string element. -/
def pyJoinComma : List JValue → Except PyExc String
  | [] => .ok ""
  | [.str s] => .ok s
  | .str s :: x :: rest => (pyJoinComma (x :: rest)).map fun r => s ++ ", " ++ r
  | _ => .error .typeError

/-- `parse_iso_datetime` (src/app.py lines 92-111). Falsy input returns `""`;
a truthy non-string raises `AttributeError` at `.replace`, which the local
`except` turns into `""`; a truthy string is replaced/parsed/re-rendered,
with any parse failure yielding `""`. Total: the caller never sees an error. -/
def pyParseIsoDatetime (v : JValue) : String :=
  if truthy v then
    match v with
    | .str s => parseIsoNormalize s
    | _ => ""
  else ""

/-! ### The Job Record and the six adapter item mappers -/

structure Job where
  id : String
  title : String
  company : String
  location : String
  url : String
  category : String
  source : String
  published : String
deriving DecidableEq, Repr, Inhabited

/-- The record literal each adapter appends (all six share this shape). -/
def mkJob (title company location url source published : String) : Job :=
  { id := generateJobId title company source
    title := title
    company := company
    location := location
    url := url
    category := categorizeJob title
    source := source
    published := published }

/-- The `xs[0] if xs else dflt` idiom used by USAJobs for company, location
and url. -/
def pyFirstOrDefault (v dflt : JValue) : Except PyExc JValue :=
  if truthy v then pyIndex0 v else .ok dflt

/-- Adzuna company: `item.get("company", {}).get("display_name") or
item.get("company", {}).get("name")` — the second operand is evaluated only
when the first (`dn`) is falsy. -/
def adzunaCompRaw (item dn : JValue) : Except PyExc JValue :=
  if truthy dn then .ok dn else do
    let co2 ← dictGetD item "company" (.obj [])
    dictGet co2 "name"

/-- Adzuna location: `item.get("location", {}).get("display_name") or
item.get("location", {}).get("area", [""])[0]` with short-circuiting `or`. -/
def adzunaLocRaw (item ldn : JValue) : Except PyExc JValue :=
  if truthy ldn then .ok ldn else do
    let lo2 ← dictGetD item "location" (.obj [])
    let area ← dictGetD lo2 "area" (.arr [.str ""])
    pyIndex0 area

/-- JSearch location: `", ".join(location_parts) if location_parts else
"Remote"`. -/
def jsearchLocationStr (parts : List JValue) : Except PyExc String :=
  if parts.isEmpty then .ok "Remote" else pyJoinComma parts

/-- TheMuse location: `locations[0].get("name", "Remote") if locations else
"Remote"`. -/
def themuseLocVal (locs : JValue) : Except PyExc JValue :=
  if truthy locs then do
    let l0 ← pyIndex0 locs
    dictGetD l0 "name" (.str "Remote")
  else .ok (.str "Remote")

/-- Remotive item loop body (src/app.py lines 158-184). Only this adapter has
the `isinstance(item, dict)` guard, so non-dict items are skipped. -/
def remotiveItem (item : JValue) : Except PyExc (Option Job) :=
  match item with
  | .obj _ => do
    let tRaw ← dictGet item "title"
    let title ← jStrip (pyOr tRaw (.str ""))
    let c1 ← dictGet item "company_name"
    let c2 ← dictGet item "company"
    let company ← jStrip (pyOr (pyOr c1 c2) (.str ""))
    let l1 ← dictGet item "candidate_required_location"
    let l2 ← dictGet item "location"
    let location ← jStrip (pyOr (pyOr l1 l2) (.str "Remote"))
    let u1 ← dictGet item "url"
    let u2 ← dictGet item "job_url"
    let url ← jStrip (pyOr (pyOr u1 u2) (.str ""))
    if title = "" ∨ company = "" ∨ url = "" then
      return none
    else do
      let p1 ← dictGet item "publication_date"
      let p2 ← dictGet item "published_at"
      return some (mkJob title company location url "Remotive" (pyParseIsoDatetime (pyOr p1 p2)))
  | _ => .ok none

/-- Adzuna item loop body (src/app.py lines 228-250). The nested
`item.get("company", {}).get(...)` chains raise on wrongly-typed values; `or`
short-circuits, so the `area[0]` fallback only runs when `display_name` is
falsy. -/
def adzunaItem (item : JValue) : Except PyExc (Option Job) := do
  let tRaw ← dictGet item "title"
  let title ← jStrip (pyOr tRaw (.str ""))
  let compObj ← dictGetD item "company" (.obj [])
  let dn ← dictGet compObj "display_name"
  let compRaw ← adzunaCompRaw item dn
  let company ← jStrip (pyOr compRaw (.str ""))
  let locObj ← dictGetD item "location" (.obj [])
  let ldn ← dictGet locObj "display_name"
  let locRaw ← adzunaLocRaw item ldn
  let location ← jStrip (pyOr locRaw (.str "Remote"))
  let u1 ← dictGet item "redirect_url"
  let u2 ← dictGet item "url"
  let url ← jStrip (pyOr (pyOr u1 u2) (.str ""))
  if title = "" ∨ company = "" ∨ url = "" then
    return none
  else do
    let cr ← dictGet item "created"
    return some (mkJob title company location url "Adzuna" (pyParseIsoDatetime cr))

/-- JSearch item loop body (src/app.py lines 294-326): the location is a
comma-join of the truthy city/state/country values. -/
def jsearchItem (item : JValue) : Except PyExc (Option Job) := do
  let tRaw ← dictGet item "job_title"
  let title ← jStrip (pyOr tRaw (.str ""))
  let eRaw ← dictGet item "employer_name"
  let company ← jStrip (pyOr eRaw (.str ""))
  let city ← dictGet item "job_city"
  let state ← dictGet item "job_state"
  let country ← dictGet item "job_country"
  let parts := (if truthy city then [city] else []) ++
    (if truthy state then [state] else []) ++
    (if truthy country then [country] else [])
  let location0 ← jsearchLocationStr parts
  let location := pyStripStr location0
  let u1 ← dictGet item "job_apply_link"
  let u2 ← dictGet item "job_url"
  let url ← jStrip (pyOr (pyOr u1 u2) (.str ""))
  if title = "" ∨ company = "" ∨ url = "" then
    return none
  else do
    let p1 ← dictGet item "job_posted_at_datetime_utc"
    let p2 ← dictGet item "job_posted_at"
    return some (mkJob title company location url "JSearch" (pyParseIsoDatetime (pyOr p1 p2)))

/-- Careerjet item loop body (src/app.py lines 371-393). -/
def careerjetItem (item : JValue) : Except PyExc (Option Job) := do
  let tRaw ← dictGet item "title"
  let title ← jStrip (pyOr tRaw (.str ""))
  let cRaw ← dictGet item "company"
  let company ← jStrip (pyOr cRaw (.str ""))
  let l1 ← dictGet item "locations"
  let l2 ← dictGet item "location"
  let location ← jStrip (pyOr (pyOr l1 l2) (.str "Remote"))
  let u1 ← dictGet item "url"
  let u2 ← dictGet item "site"
  let url ← jStrip (pyOr (pyOr u1 u2) (.str ""))
  if title = "" ∨ company = "" ∨ url = "" then
    return none
  else do
    let d ← dictGet item "date"
    return some (mkJob title company location url "Careerjet" (pyParseIsoDatetime d))

/-- TheMuse item loop body (src/app.py lines 431-456):
`locations[0].get("name", "Remote") if locations else "Remote"`. -/
def themuseItem (item : JValue) : Except PyExc (Option Job) := do
  let nRaw ← dictGet item "name"
  let title ← jStrip (pyOr nRaw (.str ""))
  let compObj ← dictGetD item "company" (.obj [])
  let nm ← dictGet compObj "name"
  let company ← jStrip (pyOr nm (.str ""))
  let locs ← dictGetD item "locations" (.arr [])
  let locVal ← themuseLocVal locs
  let location ← jStrip locVal
  let refs ← dictGetD item "refs" (.obj [])
  let lp ← dictGet refs "landing_page"
  let url ← jStrip (pyOr lp (.str ""))
  if title = "" ∨ company = "" ∨ url = "" then
    return none
  else do
    let p ← dictGet item "publication_date"
    return some (mkJob title company location url "TheMuse" (pyParseIsoDatetime p))

/-- USAJobs item loop body (src/app.py lines 501-530): company defaults to
`"US Government"` when `OrganizationCodes` is absent/falsy, and the skip
condition checks only title and url. -/
def usajobsItem (item : JValue) : Except PyExc (Option Job) := do
  let mo ← dictGetD item "MatchedObjectDescriptor" (.obj [])
  let tRaw ← dictGet mo "PositionTitle"
  let title ← jStrip (pyOr tRaw (.str ""))
  let oc ← dictGetD mo "OrganizationCodes" (.arr [])
  let compVal ← pyFirstOrDefault oc (.str "US Government")
  let company ← jStrip compVal
  let pl ← dictGetD mo "PositionLocationDisplay" (.arr [])
  let locVal ← pyFirstOrDefault pl (.str "Remote")
  let location ← jStrip locVal
  let pu ← dictGetD mo "PositionURI" (.arr [])
  let urlVal ← pyFirstOrDefault pu (.str "")
  let url ← jStrip urlVal
  if title = "" ∨ url = "" then
    return none
  else do
    let p ← dictGet mo "PublicationStartDate"
    return some (mkJob title company location url "USAJobs" (pyParseIsoDatetime p))

/-! ### Item loops, payload shapes, HTTP outcomes, fetchers -/

/-- The `for item in items: ... jobs.append(...)` loop: exceptions from an
item abort the whole adapter; skipped items contribute nothing. -/
def processItems (f : JValue → Except PyExc (Option Job)) : List JValue → Except PyExc (List Job)
  | [] => .ok []
  | x :: xs => do
    let r ← f x
    let rest ← processItems f xs
    match r with
    | none => return rest
    | some j => return j :: rest

/-- `items = payload.get(key, []) or []` then iterate. `payload.get` raises
`AttributeError` when the payload is not a dict — including Remotive's
root-array case, whose `payload if isinstance(payload, list) else []` fallback
sits to the right of an expression that has already raised. -/
def listKeyPayloadJobs (key : String) (itemF : JValue → Except PyExc (Option Job))
    (payload : JValue) : Except PyExc (List Job) := do
  let v ← dictGetD payload key (.arr [])
  let items := if truthy v then v else JValue.arr []
  let elems ← pyIter items
  processItems itemF elems

/-- USAJobs payload shape (src/app.py lines 496-498):
`payload.get("SearchResult", {}).get("SearchResultItems", []) or []`. -/
def usajobsPayloadJobs (payload : JValue) : Except PyExc (List Job) := do
  let sr ← dictGetD payload "SearchResult" (.obj [])
  let v ← dictGetD sr "SearchResultItems" (.arr [])
  let items := if truthy v then v else JValue.arr []
  let elems ← pyIter items
  processItems usajobsItem elems

/-- Outcome of `requests.get(...)` + `raise_for_status()` + `.json()`:
transport errors and non-2xx statuses raise inside the adapter's `try`;
a 2xx response has a body that is (`some`) or is not (`none`) valid JSON. -/
inductive HttpOutcome where
  | transportError
  | httpStatusError
  | success (body : Option JValue)
deriving Repr, Inhabited

/-- Process-wide configuration (`os.getenv`) plus one HTTP outcome per
provider endpoint. Credentials that only shape request parameters or headers
(country, locale, USAJobs email/key) are omitted: they never change the
control flow that the claims are about, except `USAJOBS_API_KEY`, kept to
state that USAJobs calls out regardless of it. -/
structure Env where
  remotiveResp : HttpOutcome
  adzunaResp : HttpOutcome
  jsearchResp : HttpOutcome
  careerjetResp : HttpOutcome
  themuseResp : HttpOutcome
  usajobsResp : HttpOutcome
  adzunaAppId : Option String
  adzunaAppKey : Option String
  rapidapiKey : Option String
  careerjetAffid : Option String
  themuseApiKey : Option String
  usajobsApiKey : Option String
deriving Repr, Inhabited

/-- `not os.getenv(...)`: unset, or set to the empty string. -/
def optFalsy : Option String → Bool
  | none => true
  | some s => decide (s = "")

instance exceptDecEq {ε α : Type} [DecidableEq ε] [DecidableEq α] :
    DecidableEq (Except ε α) := fun x y =>
  match x, y with
  | .error a, .error b =>
    if h : a = b then .isTrue (by rw [h]) else .isFalse (by simp [h])
  | .ok a, .ok b =>
    if h : a = b then .isTrue (by rw [h]) else .isFalse (by simp [h])
  | .error _, .ok _ => .isFalse (by simp)
  | .ok _, .error _ => .isFalse (by simp)

/-- An adapter's outcome: how many HTTP requests it issued, and the list it
returned or the exception that escaped it. -/
structure FetchResult where
  calls : Nat
  result : Except PyExc (List Job)
deriving DecidableEq, Repr

/-- The shared `try: requests.get…raise_for_status() except: return []`
pattern, followed by the unprotected `response.json()` and payload parsing. -/
def handleResponse (o : HttpOutcome) (parse : JValue → Except PyExc (List Job)) :
    Except PyExc (List Job) :=
  match o with
  | .transportError => .ok []
  | .httpStatusError => .ok []
  | .success none => .error .jsonDecodeError
  | .success (some payload) => parse payload

def fetchRemotiveJobs (env : Env) : FetchResult :=
  ⟨1, handleResponse env.remotiveResp (listKeyPayloadJobs "jobs" remotiveItem)⟩

def fetchAdzunaJobs (env : Env) : FetchResult :=
  if optFalsy env.adzunaAppId || optFalsy env.adzunaAppKey then ⟨0, .ok []⟩
  else ⟨1, handleResponse env.adzunaResp (listKeyPayloadJobs "results" adzunaItem)⟩

def fetchJsearchJobs (env : Env) : FetchResult :=
  if optFalsy env.rapidapiKey then ⟨0, .ok []⟩
  else ⟨1, handleResponse env.jsearchResp (listKeyPayloadJobs "data" jsearchItem)⟩

def fetchCareerjetJobs (env : Env) : FetchResult :=
  if optFalsy env.careerjetAffid then ⟨0, .ok []⟩
  else ⟨1, handleResponse env.careerjetResp (listKeyPayloadJobs "jobs" careerjetItem)⟩

def fetchThemuseJobs (env : Env) : FetchResult :=
  if optFalsy env.themuseApiKey then ⟨0, .ok []⟩
  else ⟨1, handleResponse env.themuseResp (listKeyPayloadJobs "results" themuseItem)⟩

/-- USAJobs performs its request unconditionally; `USAJOBS_API_KEY` only adds
a header (src/app.py lines 471-494). -/
def fetchUsajobs (env : Env) : FetchResult :=
  ⟨1, handleResponse env.usajobsResp usajobsPayloadJobs⟩

/-! ### Aggregation: dedup, sort, truncate (src/app.py lines 592-618) -/

def dedupKey (j : Job) : String × String :=
  (pyStripStr (pyLowerStr j.title), pyStripStr (pyLowerStr j.company))

def dedupAux (seen : List (String × String)) : List Job → List Job
  | [] => []
  | j :: rest =>
    if dedupKey j ∈ seen then dedupAux seen rest
    else j :: dedupAux (dedupKey j :: seen) rest

def dedupJobs (l : List Job) : List Job := dedupAux [] l

def datetimeMin : PyDatetime := ⟨1, 1, 1, 0, 0, 0, 0, none⟩

/-- `sort_key` (src/app.py lines 606-613): `datetime.min` for empty published,
the parsed datetime otherwise, `datetime.min` again if parsing raises. -/
def sortKeyFn (j : Job) : PyDatetime :=
  if j.published = "" then datetimeMin
  else
    match parseIso (replaceZ j.published.data) with
    | some dt => dt
    | none => datetimeMin

/-- Days since 0001-01-01 in the proleptic Gregorian calendar. -/
def cumMonthDays (y m : Nat) : Nat :=
  (List.range (m - 1)).foldl (fun a i => a + daysInMonth y (i + 1)) 0

def daysFromCivil (y m d : Nat) : Nat :=
  365 * (y - 1) + (y - 1) / 4 - (y - 1) / 100 + (y - 1) / 400 + cumMonthDays y m + (d - 1)

def dtMicros (dt : PyDatetime) : Int :=
  ((daysFromCivil dt.year dt.month dt.day * 86400000000 + dt.hour * 3600000000 +
    dt.minute * 60000000 + dt.second * 1000000 + dt.microsecond : Nat) : Int)

/-- CPython datetime ordering: naive values compare field-wise (equivalently,
by this mixed-radix value), aware values by their UTC instant. Comparing a
naive with an aware value raises `TypeError` and is handled in `pySortJobs`,
not here. -/
def dtSortVal (dt : PyDatetime) : Int := dtMicros dt - 60000000 * dt.tzMinutes.getD 0

def isAware (dt : PyDatetime) : Bool := dt.tzMinutes.isSome

def insertDesc (x : Job) : List Job → List Job
  | [] => [x]
  | y :: ys =>
    if dtSortVal (sortKeyFn x) > dtSortVal (sortKeyFn y) then x :: y :: ys
    else y :: insertDesc x ys

/-- A stable descending sort by `sort_key`; on mutually comparable keys every
stable sort (CPython's Timsort with `reverse=True` included) yields the same
list, so insertion sort is an exact model there. -/
def sortDescStable (l : List Job) : List Job := l.foldl (fun acc x => insertDesc x acc) []

def mixedAwareness (l : List Job) : Bool :=
  (l.any fun j => isAware (sortKeyFn j)) && (l.any fun j => !isAware (sortKeyFn j))

/-- `unique_jobs.sort(key=sort_key, reverse=True)`. If the keys mix naive and
aware datetimes the sort raises `TypeError`: any comparison sort of a list
containing both classes must order some naive element against some aware one
(directly or through a chain that crosses the classes), and CPython's
`datetime.__lt__` raises on every such comparison regardless of value. -/
def pySortJobs (l : List Job) : Except PyExc (List Job) :=
  if mixedAwareness l then .error .typeError else .ok (sortDescStable l)

/-- Python list slicing `l[:n]` for an `int` bound, negative bounds counting
from the end. -/
def pySliceTo (l : List Job) (n : Int) : List Job :=
  l.take (if n < 0 then ((l.length : Int) + n).toNat else n.toNat)

/-- `normalize_jobs` (src/app.py lines 540-618): six sequential fetches — an
exception escaping any adapter aborts the whole function — then dedup, sort,
truncate. -/
def normalizeJobs (env : Env) (limit : Int) : Except PyExc (List Job) := do
  let r ← (fetchRemotiveJobs env).result
  let a ← (fetchAdzunaJobs env).result
  let js ← (fetchJsearchJobs env).result
  let cj ← (fetchCareerjetJobs env).result
  let tm ← (fetchThemuseJobs env).result
  let us ← (fetchUsajobs env).result
  let sorted ← pySortJobs (dedupJobs (r ++ a ++ js ++ cj ++ tm ++ us))
  return pySliceTo sorted limit

/-- The call with the declaration's default argument `limit: int = 50`. -/
def normalizeJobsDefault (env : Env) : Except PyExc (List Job) := normalizeJobs env 50

/-- The pipeline up to (and excluding) truncation. -/
def aggregatePreTruncate (env : Env) : Except PyExc (List Job) := do
  let r ← (fetchRemotiveJobs env).result
  let a ← (fetchAdzunaJobs env).result
  let js ← (fetchJsearchJobs env).result
  let cj ← (fetchCareerjetJobs env).result
  let tm ← (fetchThemuseJobs env).result
  let us ← (fetchUsajobs env).result
  pySortJobs (dedupJobs (r ++ a ++ js ++ cj ++ tm ++ us))

/-! ### Specification-side definitions (from the claims' words, for
refinement comparisons) -/

/-- Spec reading of deduplication: walk the list left to right and keep a
record exactly when no earlier record of the original list has the same key. -/
def firstOccAux (pre : List Job) : List Job → List Job
  | [] => []
  | x :: xs =>
    if dedupKey x ∈ pre.map dedupKey then firstOccAux (pre ++ [x]) xs
    else x :: firstOccAux (pre ++ [x]) xs

def firstOccurrences (l : List Job) : List Job := firstOccAux [] l

/-- Which branch of `sort_key` produced the key for a given `published`
string: the empty-string check, a successful parse, or the `except` fallback. -/
inductive SortKeyBranch where
  | emptyB
  | parsedB
  | exceptB
deriving DecidableEq, Repr

def sortKeyBranch (published : String) : SortKeyBranch :=
  if published = "" then .emptyB
  else
    match parseIso (replaceZ published.data) with
    | some _ => .parsedB
    | none => .exceptB

/-- `isHttpFailure o` — the request failed inside the adapter's `try` block. -/
def isHttpFailure : HttpOutcome → Bool
  | .transportError => true
  | .httpStatusError => true
  | .success _ => false


/-! ### Concrete fixtures used in witnesses, counterexamples and scenario
theorems. Record literals carry the ids `generate_job_id` actually computes
(checked by the `decide`/`rfl` proofs below against the md5 model, and
matching CPython's `hashlib.md5`). -/

def envAllFail : Env :=
  ⟨.transportError, .transportError, .transportError, .transportError, .transportError,
   .transportError, none, none, none, none, none, none⟩

def envNonJsonBody : Env := { envAllFail with remotiveResp := .success none }

def adzunaPayloadOne : JValue :=
  .obj [("results", .arr [.obj
    [("title", .str "Platform Engineer"),
     ("company", .obj [("display_name", .str "Initech")]),
     ("redirect_url", .str "https://adzuna.example/1"),
     ("created", .str "2024-02-01T00:00:00Z")]])]

def envOneProviderUp : Env :=
  { envAllFail with
    adzunaResp := .success (some adzunaPayloadOne)
    adzunaAppId := some "id"
    adzunaAppKey := some "key" }

def adzunaJobOne : Job :=
  ⟨"f7dcda49d2847f64", "Platform Engineer", "Initech", "Remote",
   "https://adzuna.example/1", "Software Engineering", "Adzuna",
   "2024-02-01T00:00:00+00:00"⟩

def remotivePayloadFive : JValue :=
  .obj [("jobs", .arr [
    .obj [("title", .str "Backend Engineer"), ("company_name", .str "Acme"),
          ("url", .str "https://r.example/1"), ("publication_date", .str "2024-03-01")],
    .obj [("title", .str "Data Analyst"), ("company_name", .str "Globex"),
          ("url", .str "https://r.example/2"), ("publication_date", .str "2024-05-01")],
    .obj [("title", .str "ML Intern"), ("company_name", .str "Initech"),
          ("url", .str "https://r.example/3"), ("publication_date", .str "2024-01-01")],
    .obj [("title", .str "Frontend Engineer"), ("company_name", .str "Umbrella"),
          ("url", .str "https://r.example/4"), ("publication_date", .str "2024-04-01")],
    .obj [("title", .str "QA Engineer"), ("company_name", .str "Hooli"),
          ("url", .str "https://r.example/5"), ("publication_date", .str "2024-02-01")]])]

def envFiveRecords : Env := { envAllFail with remotiveResp := .success (some remotivePayloadFive) }

def jobAnalyst : Job :=
  ⟨"07a2af2746f29b95", "Data Analyst", "Globex", "Remote", "https://r.example/2",
   "Data Science", "Remotive", "2024-05-01T00:00:00"⟩

def jobFrontend : Job :=
  ⟨"6c14254bbca04f2f", "Frontend Engineer", "Umbrella", "Remote", "https://r.example/4",
   "Software Engineering", "Remotive", "2024-04-01T00:00:00"⟩

def jobBackend : Job :=
  ⟨"8abd968af77ec7c2", "Backend Engineer", "Acme", "Remote", "https://r.example/1",
   "Software Engineering", "Remotive", "2024-03-01T00:00:00"⟩

def jobQA : Job :=
  ⟨"d514aa12e4f553cf", "QA Engineer", "Hooli", "Remote", "https://r.example/5",
   "Software Engineering", "Remotive", "2024-02-01T00:00:00"⟩

def jobIntern : Job :=
  ⟨"83492859c494159a", "ML Intern", "Initech", "Remote", "https://r.example/3",
   "Internship", "Remotive", "2024-01-01T00:00:00"⟩

/-- A Remotive payload whose first item carries an offset-aware date and whose
second has no date at all (so `published = ""`). -/
def mixedDatesPayload : JValue :=
  .obj [("jobs", .arr [
    .obj [("title", .str "Engineer One"), ("company_name", .str "Acme"),
          ("url", .str "https://r.example/a"),
          ("publication_date", .str "2024-03-01T00:00:00Z")],
    .obj [("title", .str "Engineer Two"), ("company_name", .str "Globex"),
          ("url", .str "https://r.example/b")]])]

def envMixedDates : Env := { envAllFail with remotiveResp := .success (some mixedDatesPayload) }

def recMar : Job :=
  ⟨"r1", "Alpha", "CoA", "Remote", "https://x/1", "Software Engineering", "Remotive",
   "2024-03-01"⟩

def recEmpty : Job :=
  ⟨"r2", "Beta", "CoB", "Remote", "https://x/2", "Software Engineering", "Remotive", ""⟩

def recFeb : Job :=
  ⟨"r3", "Gamma", "CoC", "Remote", "https://x/3", "Software Engineering", "Remotive",
   "2024-02-01"⟩

def recAware : Job :=
  ⟨"r4", "Delta", "CoD", "Remote", "https://x/4", "Software Engineering", "Remotive",
   "2024-03-01T00:00:00+00:00"⟩

def recDupA : Job :=
  ⟨"r5", "Dev", "Acme", "Remote", "https://x/5", "Software Engineering", "Remotive", ""⟩

def recDupB : Job :=
  ⟨"r6", "dev ", " ACME", "NYC", "https://x/6", "Software Engineering", "Adzuna", ""⟩

def remotiveItemW : JValue :=
  .obj [("title", .str "Software Engineer"), ("company_name", .str "Acme"),
        ("url", .str "https://jobs.example/1")]

def remotiveJobW : Job :=
  ⟨"515bae346ccb1397", "Software Engineer", "Acme", "Remote", "https://jobs.example/1",
   "Software Engineering", "Remotive", ""⟩

def adzunaItemW : JValue :=
  .obj [("title", .str "Platform Engineer"),
        ("company", .obj [("display_name", .str "Initech")]),
        ("redirect_url", .str "https://adzuna.example/1")]

def adzunaJobW : Job :=
  ⟨"f7dcda49d2847f64", "Platform Engineer", "Initech", "Remote",
   "https://adzuna.example/1", "Software Engineering", "Adzuna", ""⟩

def jsearchItemW : JValue :=
  .obj [("job_title", .str "Data Engineer"), ("employer_name", .str "Globex"),
        ("job_city", .str "Austin"), ("job_country", .str "US"),
        ("job_apply_link", .str "https://jsearch.example/1")]

def jsearchJobW : Job :=
  ⟨"3c0180e0edacdbd6", "Data Engineer", "Globex", "Austin, US",
   "https://jsearch.example/1", "Data Science", "JSearch", ""⟩

def careerjetItemW : JValue :=
  .obj [("title", .str "Cloud Architect"), ("company", .str "Hooli"),
        ("url", .str "https://cj.example/1")]

def careerjetJobW : Job :=
  ⟨"c89885957034e890", "Cloud Architect", "Hooli", "Remote", "https://cj.example/1",
   "Software Engineering", "Careerjet", ""⟩

def themuseItemW : JValue :=
  .obj [("name", .str "AI Researcher"), ("company", .obj [("name", .str "Umbrella")]),
        ("refs", .obj [("landing_page", .str "https://muse.example/1")])]

def themuseJobW : Job :=
  ⟨"5cfacc823c329947", "AI Researcher", "Umbrella", "Remote", "https://muse.example/1",
   "AI/ML", "TheMuse", ""⟩

def usajobsItemW : JValue :=
  .obj [("MatchedObjectDescriptor", .obj
    [("PositionTitle", .str "IT Specialist"),
     ("PositionURI", .arr [.str "https://usajobs.example/1"])])]

def usajobsJobW : Job :=
  ⟨"ff77797e9c3d495f", "IT Specialist", "US Government", "Remote",
   "https://usajobs.example/1", "Software Engineering", "USAJobs", ""⟩

/-- The item's `OrganizationCodes` (behind the descriptor default) is
absent or falsy, so the company falls back to `"US Government"`. -/
def usajobsOrgFalsy (item : JValue) : Bool :=
  match item with
  | .obj fs =>
    match (jLookup fs "MatchedObjectDescriptor").getD (.obj []) with
    | .obj ms => !truthy ((jLookup ms "OrganizationCodes").getD (.arr []))
    | _ => false
  | _ => false

/-- The item's `PositionLocationDisplay` is absent or falsy. -/
def usajobsLocFalsy (item : JValue) : Bool :=
  match item with
  | .obj fs =>
    match (jLookup fs "MatchedObjectDescriptor").getD (.obj []) with
    | .obj ms => !truthy ((jLookup ms "PositionLocationDisplay").getD (.arr []))
    | _ => false
  | _ => false

/-- Both Remotive location fields are absent or falsy. -/
def remotiveLocFalsy (item : JValue) : Bool :=
  match item with
  | .obj fs =>
    !truthy (pyOr ((jLookup fs "candidate_required_location").getD .null)
      ((jLookup fs "location").getD .null))
  | _ => false

/-- The Adzuna item has no "location" key at all. -/
def adzunaLocAbsent (item : JValue) : Bool :=
  match item with
  | .obj fs =>
    match jLookup fs "location" with
    | none => true
    | some _ => false
  | _ => false

/-- All three JSearch location fields are absent or falsy. -/
def jsearchLocFalsy (item : JValue) : Bool :=
  match item with
  | .obj fs =>
    !truthy ((jLookup fs "job_city").getD .null) &&
    !truthy ((jLookup fs "job_state").getD .null) &&
    !truthy ((jLookup fs "job_country").getD .null)
  | _ => false

/-- Both Careerjet location fields are absent or falsy. -/
def careerjetLocFalsy (item : JValue) : Bool :=
  match item with
  | .obj fs =>
    !truthy (pyOr ((jLookup fs "locations").getD .null) ((jLookup fs "location").getD .null))
  | _ => false

/-- TheMuse `locations` is absent or falsy. -/
def themuseLocFalsy (item : JValue) : Bool :=
  match item with
  | .obj fs => !truthy ((jLookup fs "locations").getD (.arr []))
  | _ => false

end JobAgg

namespace JobAgg

/-! ## Theorems -/

theorem remotive_httpfail (env : Env) (h : isHttpFailure env.remotiveResp = true) :
    (fetchRemotiveJobs env).result = .ok [] := by
  unfold fetchRemotiveJobs handleResponse
  cases hr : env.remotiveResp <;> simp_all [isHttpFailure]

theorem adzuna_httpfail (env : Env) (h : isHttpFailure env.adzunaResp = true) :
    (fetchAdzunaJobs env).result = .ok [] := by
  unfold fetchAdzunaJobs
  split
  · rfl
  · unfold handleResponse
    cases hr : env.adzunaResp <;> simp_all [isHttpFailure]

theorem jsearch_httpfail (env : Env) (h : isHttpFailure env.jsearchResp = true) :
    (fetchJsearchJobs env).result = .ok [] := by
  unfold fetchJsearchJobs
  split
  · rfl
  · unfold handleResponse
    cases hr : env.jsearchResp <;> simp_all [isHttpFailure]

theorem careerjet_httpfail (env : Env) (h : isHttpFailure env.careerjetResp = true) :
    (fetchCareerjetJobs env).result = .ok [] := by
  unfold fetchCareerjetJobs
  split
  · rfl
  · unfold handleResponse
    cases hr : env.careerjetResp <;> simp_all [isHttpFailure]

theorem themuse_httpfail (env : Env) (h : isHttpFailure env.themuseResp = true) :
    (fetchThemuseJobs env).result = .ok [] := by
  unfold fetchThemuseJobs
  split
  · rfl
  · unfold handleResponse
    cases hr : env.themuseResp <;> simp_all [isHttpFailure]

theorem usajobs_httpfail (env : Env) (h : isHttpFailure env.usajobsResp = true) :
    (fetchUsajobs env).result = .ok [] := by
  unfold fetchUsajobs handleResponse
  cases hr : env.usajobsResp <;> simp_all [isHttpFailure]

theorem normalize_allfail (env : Env) (limit : Int)
    (h1 : isHttpFailure env.remotiveResp = true) (h2 : isHttpFailure env.adzunaResp = true)
    (h3 : isHttpFailure env.jsearchResp = true) (h4 : isHttpFailure env.careerjetResp = true)
    (h5 : isHttpFailure env.themuseResp = true) (h6 : isHttpFailure env.usajobsResp = true) :
    normalizeJobs env limit = .ok [] := by
  unfold normalizeJobs
  rw [remotive_httpfail env h1, adzuna_httpfail env h2, jsearch_httpfail env h3,
    careerjet_httpfail env h4, themuse_httpfail env h5, usajobs_httpfail env h6]
  simp [dedupJobs, dedupAux, pySortJobs, mixedAwareness, sortDescStable, pySliceTo,
    Bind.bind, Except.bind, Functor.map, Except.map, pure, Except.pure]

/-- C1 (amended). Each adapter catches transport errors and non-2xx statuses
locally and returns the empty list, and aggregation completes with the other
providers' records: with all six requests failing, `normalize_jobs` returns
`.ok []`, and with only Adzuna answering (one well-formed record),
`normalize_jobs` returns exactly that record. What the original claim adds —
that malformed (non-JSON) payloads are also caught locally — is refuted by
`nonjson_body_escapes_and_aborts`. -/
theorem transport_failures_isolated :
    (∀ env : Env, isHttpFailure env.remotiveResp = true →
      (fetchRemotiveJobs env).result = .ok []) ∧
    (∀ env : Env, isHttpFailure env.adzunaResp = true →
      (fetchAdzunaJobs env).result = .ok []) ∧
    (∀ env : Env, isHttpFailure env.jsearchResp = true →
      (fetchJsearchJobs env).result = .ok []) ∧
    (∀ env : Env, isHttpFailure env.careerjetResp = true →
      (fetchCareerjetJobs env).result = .ok []) ∧
    (∀ env : Env, isHttpFailure env.themuseResp = true →
      (fetchThemuseJobs env).result = .ok []) ∧
    (∀ env : Env, isHttpFailure env.usajobsResp = true →
      (fetchUsajobs env).result = .ok []) ∧
    (∀ env : Env, ∀ limit : Int,
      isHttpFailure env.remotiveResp = true → isHttpFailure env.adzunaResp = true →
      isHttpFailure env.jsearchResp = true → isHttpFailure env.careerjetResp = true →
      isHttpFailure env.themuseResp = true → isHttpFailure env.usajobsResp = true →
      normalizeJobs env limit = .ok []) ∧
    normalizeJobs envOneProviderUp 50 = .ok [adzunaJobOne] :=
  ⟨remotive_httpfail, adzuna_httpfail, jsearch_httpfail, careerjet_httpfail,
   themuse_httpfail, usajobs_httpfail,
   fun env limit h1 h2 h3 h4 h5 h6 => normalize_allfail env limit h1 h2 h3 h4 h5 h6,
   by decide⟩

theorem transport_failures_isolated_witness :
    (fetchRemotiveJobs envAllFail).result = .ok [] ∧ normalizeJobs envAllFail 50 = .ok [] :=
  ⟨transport_failures_isolated.1 envAllFail (by decide),
   transport_failures_isolated.2.2.2.2.2.2.1 envAllFail 50 (by decide) (by decide)
     (by decide) (by decide) (by decide) (by decide)⟩

/-- C1 counterexample: a 2xx Remotive response whose body is not JSON is not
caught by the adapter (the claim says it yields an empty sequence): the decode
error escapes `fetch_remotive_jobs` and aborts `normalize_jobs`. -/
theorem nonjson_body_escapes_and_aborts :
    (fetchRemotiveJobs envNonJsonBody).result = .error .jsonDecodeError ∧
    normalizeJobs envNonJsonBody 50 = .error .jsonDecodeError := by decide

/-- C3 (evaluation of the code at the failing input): the sort raises
`TypeError` as soon as an offset-aware published date meets an
empty-`published` record (whose key is the naive `datetime.min`), instead of
sinking the empty record to the bottom — both at the sort stage and end to
end, where `normalize_jobs` aborts. On all-naive dates the claimed order
[2024-03-01, 2024-02-01, ""] does hold. -/
theorem sort_mixed_awareness_raises :
    pySortJobs [recAware, recEmpty] = .error .typeError ∧
    pySortJobs [recMar, recEmpty, recFeb] = .ok [recMar, recFeb, recEmpty] ∧
    normalizeJobs envMixedDates 50 = .error .typeError := by decide

/-- C7: each adapter with required credentials (Adzuna, JSearch, Careerjet,
TheMuse) returns the empty list with zero HTTP calls whenever a required
credential is missing (unset or empty, which Python's `not` treats alike);
USAJobs issues its single call in every configuration. -/
theorem missing_credentials_skip_network :
    (∀ env : Env, (optFalsy env.adzunaAppId || optFalsy env.adzunaAppKey) = true →
      fetchAdzunaJobs env = ⟨0, .ok []⟩) ∧
    (∀ env : Env, optFalsy env.rapidapiKey = true → fetchJsearchJobs env = ⟨0, .ok []⟩) ∧
    (∀ env : Env, optFalsy env.careerjetAffid = true → fetchCareerjetJobs env = ⟨0, .ok []⟩) ∧
    (∀ env : Env, optFalsy env.themuseApiKey = true → fetchThemuseJobs env = ⟨0, .ok []⟩) ∧
    (∀ env : Env, (fetchUsajobs env).calls = 1) := by
  refine ⟨?_, ?_, ?_, ?_, ?_⟩ <;> intro env
  · intro h; simp [fetchAdzunaJobs, h]
  · intro h; simp [fetchJsearchJobs, h]
  · intro h; simp [fetchCareerjetJobs, h]
  · intro h; simp [fetchThemuseJobs, h]
  · rfl

theorem missing_credentials_skip_network_witness :
    fetchAdzunaJobs envAllFail = ⟨0, .ok []⟩ ∧ fetchJsearchJobs envAllFail = ⟨0, .ok []⟩ ∧
    fetchCareerjetJobs envAllFail = ⟨0, .ok []⟩ ∧ fetchThemuseJobs envAllFail = ⟨0, .ok []⟩ ∧
    (fetchUsajobs envAllFail).calls = 1 :=
  ⟨missing_credentials_skip_network.1 envAllFail (by decide),
   missing_credentials_skip_network.2.1 envAllFail (by decide),
   missing_credentials_skip_network.2.2.1 envAllFail (by decide),
   missing_credentials_skip_network.2.2.2.1 envAllFail (by decide),
   missing_credentials_skip_network.2.2.2.2 envAllFail⟩

/-- C6 counterexample: the id is not invariant under per-argument trimming.
`generate_job_id(" a", "b", "c")` hashes `"c: a:b"` (strip applies to the
joined string, so the inner space survives) while trimmed arguments hash
`"c:a:b"`; the first 16 md5 hex digits differ. The last three conjuncts
confirm that `"a"`, `"b"`, `"c"` are the lower-cased trimmed forms. -/
theorem job_id_changes_under_argumentwise_trim :
    generateJobId " a" "b" "c" ≠ generateJobId "a" "b" "c" ∧
    pyStripStr (pyLowerStr " a") = "a" ∧ pyStripStr (pyLowerStr "b") = "b" ∧
    pyStripStr (pyLowerStr "c") = "c" := by decide

end JobAgg

namespace JobAgg

theorem dedupAux_eq_firstOccAux (l : List Job) :
    ∀ (seen : List (String × String)) (pre : List Job),
      (∀ k, k ∈ seen ↔ k ∈ pre.map dedupKey) → dedupAux seen l = firstOccAux pre l := by
  induction l with
  | nil => intro seen pre _; rfl
  | cons x xs ih =>
    intro seen pre hiff
    unfold dedupAux firstOccAux
    by_cases hx : dedupKey x ∈ seen
    · rw [if_pos hx, if_pos ((hiff _).mp hx)]
      refine ih seen (pre ++ [x]) fun k => ⟨fun hk => ?_, fun hk => ?_⟩
      · simp only [List.map_append, List.mem_append]
        exact Or.inl ((hiff k).mp hk)
      · simp only [List.map_append, List.mem_append, List.map_cons, List.map_nil,
          List.mem_singleton] at hk
        rcases hk with hk | hk
        · exact (hiff k).mpr hk
        · rw [hk]; exact hx
    · rw [if_neg hx, if_neg (fun h => hx ((hiff _).mpr h))]
      congr 1
      refine ih (dedupKey x :: seen) (pre ++ [x]) fun k => ⟨fun hk => ?_, fun hk => ?_⟩
      · simp only [List.mem_cons] at hk
        simp only [List.map_append, List.mem_append, List.map_cons, List.map_nil,
          List.mem_singleton]
        rcases hk with hk | hk
        · exact Or.inr hk
        · exact Or.inl ((hiff k).mp hk)
      · simp only [List.map_append, List.mem_append, List.map_cons, List.map_nil,
          List.mem_singleton] at hk
        simp only [List.mem_cons]
        rcases hk with hk | hk
        · exact Or.inr ((hiff k).mpr hk)
        · exact Or.inl hk

/-- C2: deduplication keeps exactly the first occurrence of each key — the
loop with its `seen` set computes precisely the spec's `firstOccurrences`
(keep a record iff no earlier record of the concatenated list has the same
(lower-cased trimmed title, lower-cased trimmed company) key) — and for two
records agreeing on the key (e.g. across providers) only the first survives. -/
theorem dedup_keeps_first_occurrence :
    (∀ l : List Job, dedupJobs l = firstOccurrences l) ∧
    (∀ a b : Job, dedupKey a = dedupKey b → dedupJobs [a, b] = [a]) := by
  constructor
  · intro l
    exact dedupAux_eq_firstOccAux l [] [] (by simp)
  · intro a b h
    simp [dedupJobs, dedupAux, h]

theorem dedup_keeps_first_occurrence_witness :
    dedupJobs [recDupA, recDupB] = [recDupA] ∧
    dedupJobs [recDupA, recDupB] = firstOccurrences [recDupA, recDupB] :=
  ⟨dedup_keeps_first_occurrence.2 recDupA recDupB (by decide),
   dedup_keeps_first_occurrence.1 [recDupA, recDupB]⟩

theorem prefixB_trans : ∀ (a b c : List Char),
    listPrefixB a b = true → listPrefixB b c = true → listPrefixB a c = true := by
  intro a
  induction a with
  | nil => intro b c _ _; rfl
  | cons x xs ih =>
    intro b c hab hbc
    cases b with
    | nil => simp [listPrefixB] at hab
    | cons y ys =>
      cases c with
      | nil => simp [listPrefixB] at hbc
      | cons z zs =>
        simp only [listPrefixB, Bool.and_eq_true, decide_eq_true_eq] at hab hbc ⊢
        exact ⟨hab.1.trans hbc.1, ih ys zs hab.2 hbc.2⟩

theorem infixB_mono : ∀ (t a b : List Char),
    listPrefixB a b = true → listInfixB b t = true → listInfixB a t = true := by
  intro t
  induction t with
  | nil =>
    intro a b hab hbt
    cases b with
    | nil =>
      cases a with
      | nil => rfl
      | cons u us => simp [listPrefixB] at hab
    | cons v vs => simp [listInfixB, listPrefixB] at hbt
  | cons c cs ih =>
    intro a b hab hbt
    simp only [listInfixB, Bool.or_eq_true] at hbt ⊢
    rcases hbt with h | h
    · exact Or.inl (prefixB_trans a b (c :: cs) hab h)
    · exact Or.inr (ih a b hab h)

/-- C4: `categorize_job` is total and priority-ordered: "intern" forces
Internship regardless of other keywords; otherwise "data"/"analyst" give
Data Science; otherwise "ai"/"ml"/"machine learning" give AI/ML; otherwise
Software Engineering — and every title lands in exactly one of the four. -/
theorem categorize_total_and_priority (title : String) :
    (pyInStr "intern" (pyLowerStr title) = true → categorizeJob title = "Internship") ∧
    (pyInStr "intern" (pyLowerStr title) = false →
      (pyInStr "data" (pyLowerStr title) = true ∨ pyInStr "analyst" (pyLowerStr title) = true) →
      categorizeJob title = "Data Science") ∧
    (pyInStr "intern" (pyLowerStr title) = false → pyInStr "data" (pyLowerStr title) = false →
      pyInStr "analyst" (pyLowerStr title) = false →
      (pyInStr "ai" (pyLowerStr title) = true ∨ pyInStr "ml" (pyLowerStr title) = true ∨
        pyInStr "machine learning" (pyLowerStr title) = true) →
      categorizeJob title = "AI/ML") ∧
    (pyInStr "intern" (pyLowerStr title) = false → pyInStr "data" (pyLowerStr title) = false →
      pyInStr "analyst" (pyLowerStr title) = false → pyInStr "ai" (pyLowerStr title) = false →
      pyInStr "ml" (pyLowerStr title) = false →
      pyInStr "machine learning" (pyLowerStr title) = false →
      categorizeJob title = "Software Engineering") ∧
    (categorizeJob title = "Internship" ∨ categorizeJob title = "Data Science" ∨
      categorizeJob title = "AI/ML" ∨ categorizeJob title = "Software Engineering") := by
  have hship : pyInStr "internship" (pyLowerStr title) = true →
      pyInStr "intern" (pyLowerStr title) = true := fun h =>
    infixB_mono (pyLowerStr title).data "intern".data "internship".data (by decide) h
  refine ⟨fun h => ?_, fun h hd => ?_, fun h h2 h3 hd => ?_, fun h h2 h3 h4 h5 h6 => ?_, ?_⟩
  · simp [categorizeJob, h]
  · have hs : pyInStr "internship" (pyLowerStr title) = false := by
      cases hc : pyInStr "internship" (pyLowerStr title)
      · rfl
      · rw [hship hc] at h; exact absurd h (by simp)
    rcases hd with hd | hd <;> simp [categorizeJob, h, hs, hd]
  · have hs : pyInStr "internship" (pyLowerStr title) = false := by
      cases hc : pyInStr "internship" (pyLowerStr title)
      · rfl
      · rw [hship hc] at h; exact absurd h (by simp)
    rcases hd with hd | hd | hd <;> simp [categorizeJob, h, hs, h2, h3, hd]
  · have hs : pyInStr "internship" (pyLowerStr title) = false := by
      cases hc : pyInStr "internship" (pyLowerStr title)
      · rfl
      · rw [hship hc] at h; exact absurd h (by simp)
    simp [categorizeJob, h, hs, h2, h3, h4, h5, h6]
  · by_cases ha : (pyInStr "intern" (pyLowerStr title) ||
        pyInStr "internship" (pyLowerStr title)) = true
    · simp [categorizeJob, ha]
    · by_cases hb : (pyInStr "data" (pyLowerStr title) ||
          pyInStr "analyst" (pyLowerStr title)) = true
      · simp [categorizeJob, ha, hb]
      · by_cases hc : (pyInStr "ai" (pyLowerStr title) || pyInStr "ml" (pyLowerStr title) ||
            pyInStr "machine learning" (pyLowerStr title)) = true
        · simp [categorizeJob, ha, hb, hc]
        · simp [categorizeJob, ha, hb, hc]

theorem categorize_total_and_priority_witness :
    categorizeJob "Data Science Intern" = "Internship" ∧
    pyInStr "intern" (pyLowerStr "Data Science Intern") = true ∧
    pyInStr "data" (pyLowerStr "Data Science Intern") = true :=
  ⟨(categorize_total_and_priority "Data Science Intern").1 (by decide),
   by decide, by decide⟩

end JobAgg

namespace JobAgg

theorem toNat_ofNat_small (n : Nat) (h : n < 55296) : (Char.ofNat n).toNat = n := by
  have hv : n.isValidChar := Or.inl h
  rw [Char.ofNat, dif_pos hv]
  rfl

theorem charLower_idem (c : Char) : charLower (charLower c) = charLower c := by
  by_cases h : 'A' ≤ c ∧ c ≤ 'Z'
  · have h1 : charLower c = Char.ofNat (c.toNat + 32) := by rw [charLower, if_pos h]
    have hn : 65 ≤ c.toNat ∧ c.toNat ≤ 90 := by
      obtain ⟨ha, hb⟩ := h
      exact ⟨ha, hb⟩
    have ht : (Char.ofNat (c.toNat + 32)).toNat = c.toNat + 32 :=
      toNat_ofNat_small _ (by omega)
    have h2 : ¬('A' ≤ Char.ofNat (c.toNat + 32) ∧ Char.ofNat (c.toNat + 32) ≤ 'Z') := by
      intro hcon
      have : (Char.ofNat (c.toNat + 32)).toNat ≤ 90 := hcon.2
      omega
    rw [h1, charLower, if_neg h2]
  · have h1 : charLower c = c := by rw [charLower, if_neg h]
    rw [h1, h1]

theorem lowerList_idem (l : List Char) : pyLowerList (pyLowerList l) = pyLowerList l := by
  unfold pyLowerList
  rw [List.map_map]
  exact List.map_congr_left fun a _ => charLower_idem a

theorem lower_join_invariance (t c s : String) :
    pyLowerStr (pyLowerStr s ++ ":" ++ pyLowerStr t ++ ":" ++ pyLowerStr c) =
      pyLowerStr (s ++ ":" ++ t ++ ":" ++ c) := by
  unfold pyLowerStr
  apply congrArg
  show pyLowerList ((String.mk (pyLowerList s.data) ++ ":" ++ String.mk (pyLowerList t.data) ++
    ":" ++ String.mk (pyLowerList c.data)).data) = pyLowerList ((s ++ ":" ++ t ++ ":" ++ c).data)
  simp only [String.data_append]
  show pyLowerList (pyLowerList s.data ++ ":".data ++ pyLowerList t.data ++ ":".data ++
    pyLowerList c.data) = pyLowerList (s.data ++ ":".data ++ t.data ++ ":".data ++ c.data)
  unfold pyLowerList
  simp only [List.map_append, List.map_map]
  have hcc : charLower ∘ charLower = charLower := funext charLower_idem
  rw [hcc]

theorem md5HexChars_length (msg : List Nat) : (md5HexChars msg).length = 32 := by
  unfold md5HexChars wordHexLE byteHex
  simp

/-- C6 (amended): `generate_job_id` is deterministic (last conjunct), its
value is the first 16 hex characters of the md5 of the lower-cased, stripped
joined string `source:title:company` (first conjunct, and hence 16 characters
long), and it is invariant under lower-casing each argument; invariance under
per-argument *trimming* fails (`job_id_changes_under_argumentwise_trim`)
because the strip applies only to the ends of the joined string. -/
theorem job_id_structure_and_lowercase_invariance :
    (∀ t c s : String, generateJobId t c s =
      String.mk ((md5HexChars (utf8Bytes
        (pyStripStr (pyLowerStr (s ++ ":" ++ t ++ ":" ++ c))).data)).take 16)) ∧
    (∀ t c s : String,
      generateJobId (pyLowerStr t) (pyLowerStr c) (pyLowerStr s) = generateJobId t c s) ∧
    (∀ t c s : String, (generateJobId t c s).length = 16) ∧
    (∀ t1 c1 s1 t2 c2 s2 : String, t1 = t2 → c1 = c2 → s1 = s2 →
      generateJobId t1 c1 s1 = generateJobId t2 c2 s2) := by
  refine ⟨fun t c s => rfl, fun t c s => ?_, fun t c s => ?_, ?_⟩
  · unfold generateJobId
    rw [lower_join_invariance t c s]
  · show ((md5HexChars (utf8Bytes
      (pyStripStr (pyLowerStr (s ++ ":" ++ t ++ ":" ++ c))).data)).take 16).length = 16
    rw [List.length_take, md5HexChars_length]
    decide
  · intro t1 c1 s1 t2 c2 s2 h1 h2 h3
    rw [h1, h2, h3]

theorem job_id_structure_and_lowercase_invariance_witness :
    generateJobId (pyLowerStr "Dev") (pyLowerStr "Acme") (pyLowerStr "Remotive") =
      generateJobId "Dev" "Acme" "Remotive" ∧
    generateJobId "Dev" "Acme" "Remotive" = generateJobId "Dev" "Acme" "Remotive" :=
  ⟨job_id_structure_and_lowercase_invariance.2.1 "Dev" "Acme" "Remotive",
   job_id_structure_and_lowercase_invariance.2.2.2 "Dev" "Acme" "Remotive"
     "Dev" "Acme" "Remotive" rfl rfl rfl⟩

end JobAgg

namespace JobAgg

theorem normalize_eq_pretruncate (env : Env) (limit : Int) :
    normalizeJobs env limit =
      (aggregatePreTruncate env).map fun full => pySliceTo full limit := by
  unfold normalizeJobs aggregatePreTruncate
  cases h1 : (fetchRemotiveJobs env).result with
  | error e => simp [Bind.bind, Except.bind, Functor.map, Except.map]
  | ok r =>
    cases h2 : (fetchAdzunaJobs env).result with
    | error e => simp [Bind.bind, Except.bind, Functor.map, Except.map]
    | ok a =>
      cases h3 : (fetchJsearchJobs env).result with
      | error e => simp [Bind.bind, Except.bind, Functor.map, Except.map]
      | ok js =>
        cases h4 : (fetchCareerjetJobs env).result with
        | error e => simp [Bind.bind, Except.bind, Functor.map, Except.map]
        | ok cj =>
          cases h5 : (fetchThemuseJobs env).result with
          | error e => simp [Bind.bind, Except.bind, Functor.map, Except.map]
          | ok tm =>
            cases h6 : (fetchUsajobs env).result with
            | error e => simp [Bind.bind, Except.bind, Functor.map, Except.map]
            | ok us =>
              simp only [Bind.bind, Except.bind, Functor.map, Except.map, Pure.pure,
                Except.pure]

/-- C8 (amended): `normalize_jobs(limit)` is the truncation of the
deduplicated, date-sorted aggregate: for every *non-negative* limit it returns
at most `limit` records, namely the initial segment `full.take limit` of the
pre-truncation pipeline output; the declaration's default limit is 50; and on
the five-record scenario, limit 2 returns exactly the first two records in
sorted order. (For negative limits Python slice semantics drop records from
the end instead — see `negative_limit_exceeds_bound`.) -/
theorem truncate_initial_segment :
    (∀ (env : Env) (limit : Int), normalizeJobs env limit =
      (aggregatePreTruncate env).map fun full => pySliceTo full limit) ∧
    (∀ (env : Env) (limit : Int), 0 ≤ limit → ∀ l, normalizeJobs env limit = .ok l →
      (l.length : Int) ≤ limit ∧
      ∃ full, aggregatePreTruncate env = .ok full ∧ l = full.take limit.toNat) ∧
    (∀ env : Env, normalizeJobsDefault env = normalizeJobs env 50) ∧
    aggregatePreTruncate envFiveRecords =
      .ok [jobAnalyst, jobFrontend, jobBackend, jobQA, jobIntern] ∧
    normalizeJobs envFiveRecords 2 = .ok [jobAnalyst, jobFrontend] := by
  refine ⟨normalize_eq_pretruncate, ?_, fun env => rfl, by decide, by decide⟩
  intro env limit hlim l h
  rw [normalize_eq_pretruncate] at h
  cases hagg : aggregatePreTruncate env with
  | error e => rw [hagg] at h; exact absurd h (by simp [Functor.map, Except.map])
  | ok full =>
    rw [hagg] at h
    simp only [Functor.map, Except.map, Except.ok.injEq] at h
    have hnn : ¬ limit < 0 := not_lt.mpr hlim
    have hslice : pySliceTo full limit = full.take limit.toNat := by
      unfold pySliceTo; rw [if_neg hnn]
    refine ⟨?_, full, rfl, by rw [← h, hslice]⟩
    rw [← h, hslice]
    have h1 : (full.take limit.toNat).length ≤ limit.toNat :=
      (List.length_take limit.toNat full).le.trans (min_le_left _ _)
    have h2 : (limit.toNat : Int) = limit := Int.toNat_of_nonneg hlim
    omega

theorem truncate_initial_segment_witness :
    (([jobAnalyst, jobFrontend].length : Int) ≤ 2) ∧
    ∃ full, aggregatePreTruncate envFiveRecords = .ok full ∧
      [jobAnalyst, jobFrontend] = full.take (2 : Int).toNat :=
  truncate_initial_segment.2.1 envFiveRecords 2 (by decide) [jobAnalyst, jobFrontend]
    (by decide)

/-- C8 counterexample: the claim quantifies over *every* value of `limit`, but
for `limit = -1` the Python slice `unique_jobs[:-1]` returns all but the last
record — four records from the five-record scenario — which is not "at most
`limit` records". -/
theorem negative_limit_exceeds_bound :
    Except.map List.length (normalizeJobs envFiveRecords (-1)) = .ok 4 ∧
    ¬((4 : Int) ≤ -1) := by decide

end JobAgg

namespace JobAgg

theorem toNat_digitChar (n : Nat) : (digitChar n).toNat = 48 + n % 10 :=
  toNat_ofNat_small _ (by omega)

theorem isDigitC_digitChar (n : Nat) : isDigitC (digitChar n) = true := by
  simp [isDigitC, toNat_digitChar]
  omega

theorem dVal_digitChar (n : Nat) : dVal (digitChar n) = n % 10 := by
  simp [dVal, toNat_digitChar]

theorem read2_round (n : Nat) (h : n ≤ 99) (r : List Char) :
    read2 (twoDig n ++ r) = some (n, r) := by
  simp [twoDig, read2, isDigitC_digitChar, dVal_digitChar]
  omega

theorem read4_round (n : Nat) (h : n ≤ 9999) (r : List Char) :
    read4 (fourDig n ++ r) = some (n, r) := by
  simp [fourDig, read4, isDigitC_digitChar, dVal_digitChar]
  omega

theorem expectChar_cons (c : Char) (r : List Char) : expectChar c (c :: r) = some r := by
  simp [expectChar]

theorem takeDigits_sixDig (us : Nat) (r : List Char) :
    takeDigits 6 (sixDig us ++ r) = (sixDig us, r) := by
  simp [sixDig, takeDigits, isDigitC_digitChar]

theorem digitsVal_sixDig (us : Nat) (h : us ≤ 999999) : digitsVal (sixDig us) = us := by
  show List.foldl (fun a c => 10 * a + dVal c) 0 (sixDig us) = us
  simp [sixDig, List.foldl, dVal_digitChar]
  omega

theorem readFrac_round (us : Nat) (h : us ≤ 999999) (r : List Char) :
    readFrac (sixDig us ++ r) = some (us, r) := by
  unfold readFrac
  rw [takeDigits_sixDig]
  have h1 : (sixDig us).isEmpty = false := by simp [sixDig]
  have h2 : (sixDig us).length = 6 := by simp [sixDig]
  simp [h1, h2, digitsVal_sixDig us h]

theorem readOffset_round (off : Int) (h : off.natAbs ≤ 1439) :
    readOffset (offsetChars (some off)) = some (some off) := by
  have h60 : off.natAbs / 60 ≤ 23 := by omega
  have h59 : off.natAbs % 60 ≤ 59 := by omega
  have hr2a := read2_round (off.natAbs / 60) (by omega) (':' :: twoDig (off.natAbs % 60))
  have hr2b := read2_round (off.natAbs % 60) (by omega) ([] : List Char)
  rw [List.append_nil] at hr2b
  by_cases hneg : off < 0
  · have hoc : offsetChars (some off) =
        '-' :: (twoDig (off.natAbs / 60) ++ ':' :: twoDig (off.natAbs % 60)) := by
      simp [offsetChars, hneg]
    rw [hoc]
    simp [readOffset, hr2a, hr2b, expectChar_cons, h60, h59]
    rw [abs_of_neg hneg]
    omega
  · have hoc : offsetChars (some off) =
        '+' :: (twoDig (off.natAbs / 60) ++ ':' :: twoDig (off.natAbs % 60)) := by
      simp [offsetChars, hneg]
    rw [hoc]
    simp [readOffset, hr2a, hr2b, expectChar_cons, h60, h59]
    rw [abs_of_nonneg (not_lt.mp hneg)]
    omega

end JobAgg

namespace JobAgg

theorem daysInMonth_le (y m : Nat) : daysInMonth y m ≤ 31 := by
  unfold daysInMonth
  split
  · split <;> decide
  · split <;> decide

theorem mkValidDT_some {y mo d h mi s us : Nat} {tz : Option Int} {dt : PyDatetime}
    (hm : mkValidDT y mo d h mi s us tz = some dt) : validB dt = true := by
  unfold mkValidDT at hm
  split at hm
  · rename_i hcond
    cases hm
    exact hcond
  · exact absurd hm (by simp)

/-- Everything the parser returns passes the constructor's range checks. -/
theorem parseIso_valid (cs : List Char) (dt : PyDatetime) (h : parseIso cs = some dt) :
    validB dt = true := by
  unfold parseIso at h
  simp only [Option.bind_eq_some] at h
  obtain ⟨py, hpy, r1, hr1, pmo, hpmo, r2, hr2, pd, hpd, h⟩ := h
  split at h
  · exact mkValidDT_some h
  · split at h
    · simp only [Option.bind_eq_some] at h
      obtain ⟨q, hq, h⟩ := h
      exact mkValidDT_some h
    · exact absurd h (by simp)

/-- Printing a valid datetime and parsing it back is the identity. -/
theorem parseIso_isoformat (dt : PyDatetime) (hv : validB dt = true) :
    parseIso (isoformatChars dt) = some dt := by
  have hdm := daysInMonth_le dt.year dt.month
  cases htz : dt.tzMinutes with
  | none =>
    have hb : 1 ≤ dt.year ∧ dt.year ≤ 9999 ∧ 1 ≤ dt.month ∧ dt.month ≤ 12 ∧ 1 ≤ dt.day ∧
        dt.day ≤ daysInMonth dt.year dt.month ∧ dt.hour ≤ 23 ∧ dt.minute ≤ 59 ∧
        dt.second ≤ 59 ∧ dt.microsecond ≤ 999999 := by
      have hv2 := hv
      simp [validB, htz, Bool.and_eq_true, decide_eq_true_eq] at hv2
      tauto
    obtain ⟨b1, b2, b3, b4, b5, b6, b7, b8, b9, b10⟩ := hb
    have e4 : ∀ r, read4 (fourDig dt.year ++ r) = some (dt.year, r) :=
      fun r => read4_round _ (by omega) r
    have emo : ∀ r, read2 (twoDig dt.month ++ r) = some (dt.month, r) :=
      fun r => read2_round _ (by omega) r
    have ed : ∀ r, read2 (twoDig dt.day ++ r) = some (dt.day, r) :=
      fun r => read2_round _ (by omega) r
    have eh : ∀ r, read2 (twoDig dt.hour ++ r) = some (dt.hour, r) :=
      fun r => read2_round _ (by omega) r
    have emi : ∀ r, read2 (twoDig dt.minute ++ r) = some (dt.minute, r) :=
      fun r => read2_round _ (by omega) r
    have es : ∀ r, read2 (twoDig dt.second ++ r) = some (dt.second, r) :=
      fun r => read2_round _ (by omega) r
    have es0 : read2 (twoDig dt.second) = some (dt.second, []) := by
      have := es []; rwa [List.append_nil] at this
    by_cases hus : dt.microsecond = 0
    · have heq : (⟨dt.year, dt.month, dt.day, dt.hour, dt.minute, dt.second, 0, none⟩ :
          PyDatetime) = dt := by
        cases dt with
        | mk y mo d h mi s us tz => simp_all
      have hshape : isoformatChars dt =
          fourDig dt.year ++ '-' :: (twoDig dt.month ++ '-' :: (twoDig dt.day ++ 'T' ::
          (twoDig dt.hour ++ ':' :: (twoDig dt.minute ++ ':' :: twoDig dt.second)))) := by
        simp [isoformatChars, htz, hus, offsetChars]
      rw [hshape]
      simp only [parseIso, parseTimePart, e4, Option.some_bind, expectChar_cons, emo, ed,
        eh, emi, es, es0]
      simp only [readOffset, expectChar, Option.some_bind]
      simp only [true_or, if_true, Option.map_some', Option.some_bind]
      unfold mkValidDT
      rw [heq, if_pos hv]
    · have heq : (⟨dt.year, dt.month, dt.day, dt.hour, dt.minute, dt.second,
          dt.microsecond, none⟩ : PyDatetime) = dt := by
        cases dt with
        | mk y mo d h mi s us tz => simp_all
      have efrac : readFrac (sixDig dt.microsecond) = some (dt.microsecond, []) := by
        have := readFrac_round dt.microsecond (by omega) []
        rwa [List.append_nil] at this
      have hshape : isoformatChars dt =
          fourDig dt.year ++ '-' :: (twoDig dt.month ++ '-' :: (twoDig dt.day ++ 'T' ::
          (twoDig dt.hour ++ ':' :: (twoDig dt.minute ++ ':' :: (twoDig dt.second ++
          '.' :: sixDig dt.microsecond))))) := by
        simp [isoformatChars, htz, hus, offsetChars]
      rw [hshape]
      simp only [parseIso, parseTimePart, e4, Option.some_bind, expectChar_cons, emo, ed,
        eh, emi, es, efrac]
      simp only [readOffset, expectChar, Option.some_bind]
      simp only [true_or, if_true, Option.map_some', Option.some_bind]
      unfold mkValidDT
      rw [heq, if_pos hv]
  | some off =>
    have hb : 1 ≤ dt.year ∧ dt.year ≤ 9999 ∧ 1 ≤ dt.month ∧ dt.month ≤ 12 ∧ 1 ≤ dt.day ∧
        dt.day ≤ daysInMonth dt.year dt.month ∧ dt.hour ≤ 23 ∧ dt.minute ≤ 59 ∧
        dt.second ≤ 59 ∧ dt.microsecond ≤ 999999 ∧ off.natAbs ≤ 1439 := by
      have hv2 := hv
      simp [validB, htz, Bool.and_eq_true, decide_eq_true_eq] at hv2
      tauto
    obtain ⟨b1, b2, b3, b4, b5, b6, b7, b8, b9, b10, b11⟩ := hb
    have e4 : ∀ r, read4 (fourDig dt.year ++ r) = some (dt.year, r) :=
      fun r => read4_round _ (by omega) r
    have emo : ∀ r, read2 (twoDig dt.month ++ r) = some (dt.month, r) :=
      fun r => read2_round _ (by omega) r
    have ed : ∀ r, read2 (twoDig dt.day ++ r) = some (dt.day, r) :=
      fun r => read2_round _ (by omega) r
    have eh : ∀ r, read2 (twoDig dt.hour ++ r) = some (dt.hour, r) :=
      fun r => read2_round _ (by omega) r
    have emi : ∀ r, read2 (twoDig dt.minute ++ r) = some (dt.minute, r) :=
      fun r => read2_round _ (by omega) r
    have es : ∀ r, read2 (twoDig dt.second ++ r) = some (dt.second, r) :=
      fun r => read2_round _ (by omega) r
    have eoff : readOffset (offsetChars (some off)) = some (some off) :=
      readOffset_round off b11
    have heq : (⟨dt.year, dt.month, dt.day, dt.hour, dt.minute, dt.second,
        dt.microsecond, some off⟩ : PyDatetime) = dt := by
      cases dt with
      | mk y mo d h mi s us tz => simp_all
    by_cases hus : dt.microsecond = 0
    · have heq0 : (⟨dt.year, dt.month, dt.day, dt.hour, dt.minute, dt.second, 0,
          some off⟩ : PyDatetime) = dt := by
        cases dt with
        | mk y mo d h mi s us tz => simp_all
      have hshape : isoformatChars dt =
          fourDig dt.year ++ '-' :: (twoDig dt.month ++ '-' :: (twoDig dt.day ++ 'T' ::
          (twoDig dt.hour ++ ':' :: (twoDig dt.minute ++ ':' :: (twoDig dt.second ++
          offsetChars (some off)))))) := by
        simp [isoformatChars, htz, hus, List.append_assoc]
      rw [hshape]
      have hdot : expectChar '.' (offsetChars (some off)) = none := by
        by_cases hneg : off < 0 <;> simp [offsetChars, hneg, expectChar]
      simp only [parseIso, parseTimePart, e4, Option.some_bind, expectChar_cons, emo, ed,
        eh, emi, es, hdot, eoff]
      simp only [true_or, if_true, Option.map_some', Option.some_bind]
      unfold mkValidDT
      rw [heq0, if_pos hv]
    · have efrac : readFrac (sixDig dt.microsecond ++ offsetChars (some off)) =
          some (dt.microsecond, offsetChars (some off)) :=
        readFrac_round dt.microsecond (by omega) _
      have hshape : isoformatChars dt =
          fourDig dt.year ++ '-' :: (twoDig dt.month ++ '-' :: (twoDig dt.day ++ 'T' ::
          (twoDig dt.hour ++ ':' :: (twoDig dt.minute ++ ':' :: (twoDig dt.second ++
          '.' :: (sixDig dt.microsecond ++ offsetChars (some off))))))) := by
        simp [isoformatChars, htz, hus, List.append_assoc]
      rw [hshape]
      simp only [parseIso, parseTimePart, e4, Option.some_bind, expectChar_cons, emo, ed,
        eh, emi, es, efrac, eoff]
      simp only [true_or, if_true, Option.map_some', Option.some_bind]
      unfold mkValidDT
      rw [heq, if_pos hv]

end JobAgg

namespace JobAgg

theorem digitChar_ne_Z (n : Nat) : digitChar n ≠ 'Z' := by
  intro h
  have h2 := congrArg Char.toNat h
  rw [toNat_digitChar] at h2
  have h90 : ('Z' : Char).toNat = 90 := rfl
  rw [h90] at h2
  omega

theorem replaceZ_append (a b : List Char) :
    replaceZ (a ++ b) = replaceZ a ++ replaceZ b := by
  induction a with
  | nil => rfl
  | cons c r ih =>
    by_cases hc : c = 'Z' <;> simp [replaceZ, hc, ih, List.append_assoc]

/-- `isoformat` output never contains `'Z'`, so the `replace("Z", "+00:00")`
in `sort_key` is a no-op on adapter-produced published strings. -/
theorem replaceZ_isoformat (dt : PyDatetime) :
    replaceZ (isoformatChars dt) = isoformatChars dt := by
  cases htz : dt.tzMinutes with
  | none =>
    by_cases hus : dt.microsecond = 0 <;>
      simp [isoformatChars, htz, hus, offsetChars, replaceZ_append, replaceZ, fourDig,
        twoDig, sixDig, digitChar_ne_Z]
  | some off =>
    have hsign : ((if off < 0 then '-' else '+') : Char) ≠ 'Z' := by
      split <;> decide
    by_cases hus : dt.microsecond = 0 <;>
      simp [isoformatChars, htz, hus, offsetChars, replaceZ_append, replaceZ, fourDig,
        twoDig, sixDig, digitChar_ne_Z, hsign]

theorem replaceZ_of_no_Z (l : List Char) (h : ∀ c ∈ l, c ≠ 'Z') : replaceZ l = l := by
  induction l with
  | nil => rfl
  | cons c r ih =>
    have hc : c ≠ 'Z' := h c (by simp)
    simp only [replaceZ, if_neg hc, List.cons.injEq, true_and]
    exact ih fun x hx => h x (by simp [hx])

theorem isoformatChars_ne_nil (dt : PyDatetime) : isoformatChars dt ≠ [] := by
  simp [isoformatChars, fourDig]

theorem isoformat_ne_empty (dt : PyDatetime) : isoformat dt ≠ "" := by
  intro h
  have h2 := congrArg String.data h
  exact isoformatChars_ne_nil dt h2

theorem sortKeyBranch_isoformat (dt : PyDatetime) (hv : validB dt = true) :
    sortKeyBranch (isoformat dt) = .parsedB := by
  unfold sortKeyBranch
  rw [if_neg (isoformat_ne_empty dt)]
  have hd : (isoformat dt).data = isoformatChars dt := rfl
  rw [hd, replaceZ_isoformat, parseIso_isoformat dt hv]

theorem pyParse_success (s : String) (dt : PyDatetime)
    (hp : parseIso (replaceZ s.data) = some dt) :
    pyParseIsoDatetime (.str s) = isoformat dt := by
  have hs : s ≠ "" := by
    intro he
    subst he
    simp [replaceZ, parseIso, read4] at hp
  have ht : truthy (.str s) = true := by simp [truthy, hs]
  unfold pyParseIsoDatetime
  rw [if_pos ht]
  show parseIsoNormalize s = isoformat dt
  unfold parseIsoNormalize
  rw [hp]

theorem pyParse_failure (s : String) (hp : parseIso (replaceZ s.data) = none) :
    pyParseIsoDatetime (.str s) = "" := by
  by_cases hs : s = ""
  · subst hs; rfl
  · have ht : truthy (.str s) = true := by simp [truthy, hs]
    unfold pyParseIsoDatetime
    rw [if_pos ht]
    show parseIsoNormalize s = ""
    unfold parseIsoNormalize
    rw [hp]

/-- C5: `parse_iso_datetime` returns `""` for absent (`None`) and empty
input; it maps `"2024-01-15T10:00:00Z"` to the equivalent offset-aware
`"2024-01-15T10:00:00+00:00"` and `"not-a-date"` to `""`; in general, for a
non-empty string it replaces `"Z"` with `"+00:00"`, and a successful ISO parse
yields the normalized `isoformat` rendering while any parse failure yields
`""` (the function is total — no error reaches the caller); finally, valid
ISO input (no `"Z"`) round-trips: the output re-parses to the same datetime,
preserving the semantic value. -/
theorem parse_iso_datetime_spec :
    pyParseIsoDatetime .null = "" ∧
    pyParseIsoDatetime (.str "") = "" ∧
    pyParseIsoDatetime (.str "2024-01-15T10:00:00Z") = "2024-01-15T10:00:00+00:00" ∧
    pyParseIsoDatetime (.str "not-a-date") = "" ∧
    (∀ (s : String) (dt : PyDatetime), parseIso (replaceZ s.data) = some dt →
      pyParseIsoDatetime (.str s) = isoformat dt) ∧
    (∀ s : String, parseIso (replaceZ s.data) = none → pyParseIsoDatetime (.str s) = "") ∧
    (∀ (s : String) (dt : PyDatetime), (∀ c ∈ s.data, c ≠ 'Z') → parseIso s.data = some dt →
      pyParseIsoDatetime (.str s) = isoformat dt ∧ parseIso (isoformat dt).data = some dt) := by
  refine ⟨rfl, rfl, by decide, by decide, pyParse_success, pyParse_failure, ?_⟩
  intro s dt hz hp
  have h1 : parseIso (replaceZ s.data) = some dt := by
    rw [replaceZ_of_no_Z s.data hz]; exact hp
  refine ⟨pyParse_success s dt h1, ?_⟩
  show parseIso (isoformatChars dt) = some dt
  exact parseIso_isoformat dt (parseIso_valid _ _ hp)

theorem parse_iso_datetime_spec_witness :
    pyParseIsoDatetime (.str "2024-02-03 04:05:06") =
      isoformat ⟨2024, 2, 3, 4, 5, 6, 0, none⟩ :=
  parse_iso_datetime_spec.2.2.2.2.1 "2024-02-03 04:05:06" ⟨2024, 2, 3, 4, 5, 6, 0, none⟩
    (by decide)

/-- C10: every `published` value an adapter can produce — `parse_iso_datetime`
applied to any JSON value — is either `""` or the `isoformat` rendering of a
successfully parsed (hence range-valid) datetime; consequently the `sort_key`
in `normalize_jobs` reaches its `datetime.min` fallback only through the
empty-published check, never through the parse-failure `except` branch. -/
theorem adapter_published_never_hits_parse_fallback :
    ∀ v : JValue,
      (pyParseIsoDatetime v = "" ∨
        ∃ dt, validB dt = true ∧ pyParseIsoDatetime v = isoformat dt) ∧
      sortKeyBranch (pyParseIsoDatetime v) ≠ .exceptB := by
  intro v
  have hcases : pyParseIsoDatetime v = "" ∨
      ∃ dt, validB dt = true ∧ pyParseIsoDatetime v = isoformat dt := by
    cases v with
    | str s =>
      cases hp : parseIso (replaceZ s.data) with
      | none => exact Or.inl (pyParse_failure s hp)
      | some dt => exact Or.inr ⟨dt, parseIso_valid _ _ hp, pyParse_success s dt hp⟩
    | null => exact Or.inl rfl
    | bool b => exact Or.inl (by unfold pyParseIsoDatetime; split <;> rfl)
    | num n => exact Or.inl (by unfold pyParseIsoDatetime; split <;> rfl)
    | arr l => exact Or.inl (by unfold pyParseIsoDatetime; split <;> rfl)
    | obj l => exact Or.inl (by unfold pyParseIsoDatetime; split <;> rfl)
  rcases hcases with hc | ⟨dt, hdt, hc⟩
  · rw [hc]
    refine ⟨Or.inl rfl, ?_⟩
    unfold sortKeyBranch
    simp
  · rw [hc]
    refine ⟨Or.inr ⟨dt, hdt, rfl⟩, ?_⟩
    rw [sortKeyBranch_isoformat dt hdt]
    simp

end JobAgg

namespace JobAgg

theorem except_bind_ok_left {ε α β : Type} (a : α) (f : α → Except ε β) :
    (Except.ok (ε := ε) a).bind f = f a := rfl

theorem except_bind_ok {ε α β : Type} (x : Except ε α) (f : α → Except ε β) (b : β) :
    x.bind f = .ok b ↔ ∃ a, x = .ok a ∧ f a = .ok b := by
  cases x <;> simp [Except.bind]

theorem remotiveItem_invariants (item : JValue) (j : Job)
    (h : remotiveItem item = .ok (some j)) :
    j.title ≠ "" ∧ j.company ≠ "" ∧ j.url ≠ "" ∧ j.source = "Remotive" ∧
    (remotiveLocFalsy item = true → j.location = "Remote") := by
  cases item with
  | obj fs =>
    simp only [remotiveItem, Bind.bind, dictGet, dictGetD, except_bind_ok_left,
      except_bind_ok, Pure.pure, Except.pure] at h
    obtain ⟨title, hT, company, hC, location, hL, url, hU, h⟩ := h
    by_cases hskip : title = "" ∨ company = "" ∨ url = ""
    · rw [if_pos hskip] at h
      simp at h
    · rw [if_neg hskip] at h
      simp only [Except.ok.injEq, Option.some.injEq] at h
      push_neg at hskip
      obtain ⟨ht1, ht2, ht3⟩ := hskip
      subst h
      refine ⟨by simp only [mkJob]; exact ht1, by simp only [mkJob]; exact ht2,
        by simp only [mkJob]; exact ht3, rfl, ?_⟩
      intro hfalsy
      simp only [remotiveLocFalsy, Bool.not_eq_true'] at hfalsy
      have hor : pyOr (pyOr ((jLookup fs "candidate_required_location").getD .null)
          ((jLookup fs "location").getD .null)) (.str "Remote") = .str "Remote" := by
        have hstep : pyOr (pyOr ((jLookup fs "candidate_required_location").getD .null)
            ((jLookup fs "location").getD .null)) (.str "Remote") =
            if truthy (pyOr ((jLookup fs "candidate_required_location").getD .null)
              ((jLookup fs "location").getD .null)) = true then
              pyOr ((jLookup fs "candidate_required_location").getD .null)
                ((jLookup fs "location").getD .null)
            else .str "Remote" := rfl
        rw [hstep, hfalsy]
        simp
      rw [hor] at hL
      have h2 : Except.ok (ε := PyExc) (pyStripStr "Remote") = .ok location := hL
      have h3 : pyStripStr "Remote" = "Remote" := by decide
      rw [h3] at h2
      simp only [Except.ok.injEq] at h2
      simp only [mkJob]
      exact h2.symm
  | null => simp [remotiveItem] at h
  | bool b => simp [remotiveItem] at h
  | num n => simp [remotiveItem] at h
  | str s => simp [remotiveItem] at h
  | arr l => simp [remotiveItem] at h

end JobAgg

namespace JobAgg

theorem careerjetItem_invariants (item : JValue) (j : Job)
    (h : careerjetItem item = .ok (some j)) :
    j.title ≠ "" ∧ j.company ≠ "" ∧ j.url ≠ "" ∧ j.source = "Careerjet" ∧
    (careerjetLocFalsy item = true → j.location = "Remote") := by
  cases item with
  | obj fs =>
    simp only [careerjetItem, Bind.bind, dictGet, dictGetD, except_bind_ok_left,
      except_bind_ok, Pure.pure, Except.pure] at h
    obtain ⟨title, hT, company, hC, location, hL, url, hU, h⟩ := h
    by_cases hskip : title = "" ∨ company = "" ∨ url = ""
    · rw [if_pos hskip] at h
      simp at h
    · rw [if_neg hskip] at h
      simp only [Except.ok.injEq, Option.some.injEq] at h
      push_neg at hskip
      obtain ⟨ht1, ht2, ht3⟩ := hskip
      subst h
      refine ⟨by simp only [mkJob]; exact ht1, by simp only [mkJob]; exact ht2,
        by simp only [mkJob]; exact ht3, rfl, ?_⟩
      intro hfalsy
      simp only [careerjetLocFalsy, Bool.not_eq_true'] at hfalsy
      have hstep : pyOr (pyOr ((jLookup fs "locations").getD .null)
          ((jLookup fs "location").getD .null)) (.str "Remote") =
          if truthy (pyOr ((jLookup fs "locations").getD .null)
            ((jLookup fs "location").getD .null)) = true then
            pyOr ((jLookup fs "locations").getD .null) ((jLookup fs "location").getD .null)
          else .str "Remote" := rfl
      rw [hstep, hfalsy] at hL
      simp only [Bool.false_eq_true, if_false] at hL
      have h2 : Except.ok (ε := PyExc) (pyStripStr "Remote") = .ok location := hL
      have h3 : pyStripStr "Remote" = "Remote" := by decide
      rw [h3] at h2
      simp only [Except.ok.injEq] at h2
      simp only [mkJob]
      exact h2.symm
  | null => simp [careerjetItem, Bind.bind, dictGet, dictGetD, Except.bind] at h
  | bool b => simp [careerjetItem, Bind.bind, dictGet, dictGetD, Except.bind] at h
  | num n => simp [careerjetItem, Bind.bind, dictGet, dictGetD, Except.bind] at h
  | str s => simp [careerjetItem, Bind.bind, dictGet, dictGetD, Except.bind] at h
  | arr l => simp [careerjetItem, Bind.bind, dictGet, dictGetD, Except.bind] at h

theorem adzunaItem_invariants (item : JValue) (j : Job)
    (h : adzunaItem item = .ok (some j)) :
    j.title ≠ "" ∧ j.company ≠ "" ∧ j.url ≠ "" ∧ j.source = "Adzuna" ∧
    (adzunaLocAbsent item = true → j.location = "Remote") := by
  cases item with
  | obj fs =>
    simp only [adzunaItem, Bind.bind, dictGet, dictGetD, except_bind_ok_left,
      except_bind_ok, Pure.pure, Except.pure] at h
    obtain ⟨title, hT, dn, hDN, compRaw, hCR, company, hC, ldn, hLDN, locRaw, hLR,
      location, hL, url, hU, h⟩ := h
    by_cases hskip : title = "" ∨ company = "" ∨ url = ""
    · rw [if_pos hskip] at h
      simp at h
    · rw [if_neg hskip] at h
      simp only [Except.ok.injEq, Option.some.injEq] at h
      push_neg at hskip
      obtain ⟨ht1, ht2, ht3⟩ := hskip
      subst h
      refine ⟨by simp only [mkJob]; exact ht1, by simp only [mkJob]; exact ht2,
        by simp only [mkJob]; exact ht3, rfl, ?_⟩
      intro habs
      have habs2 : jLookup fs "location" = none := by
        simp only [adzunaLocAbsent] at habs
        cases hlk : jLookup fs "location" with
        | none => rfl
        | some v => rw [hlk] at habs; cases habs
      have hldn : ldn = JValue.null := by
        rw [habs2] at hLDN
        simp only [Option.getD, jLookup, Except.ok.injEq] at hLDN
        exact hLDN.symm
      have hlocRaw : locRaw = JValue.str "" := by
        rw [hldn] at hLR
        unfold adzunaLocRaw at hLR
        simp only [truthy, Bool.false_eq_true, if_false, Bind.bind, Except.bind, dictGetD,
          habs2, Option.getD, jLookup, pyIndex0, Except.ok.injEq] at hLR
        exact hLR.symm
      rw [hlocRaw] at hL
      have hor : pyOr (.str "") (.str "Remote") = .str "Remote" := rfl
      rw [hor] at hL
      have h2 : Except.ok (ε := PyExc) (pyStripStr "Remote") = .ok location := hL
      have h3 : pyStripStr "Remote" = "Remote" := by decide
      rw [h3] at h2
      simp only [Except.ok.injEq] at h2
      simp only [mkJob]
      exact h2.symm
  | null => simp [adzunaItem, Bind.bind, dictGet, dictGetD, Except.bind] at h
  | bool b => simp [adzunaItem, Bind.bind, dictGet, dictGetD, Except.bind] at h
  | num n => simp [adzunaItem, Bind.bind, dictGet, dictGetD, Except.bind] at h
  | str s => simp [adzunaItem, Bind.bind, dictGet, dictGetD, Except.bind] at h
  | arr l => simp [adzunaItem, Bind.bind, dictGet, dictGetD, Except.bind] at h

end JobAgg

namespace JobAgg

theorem jsearchItem_invariants (item : JValue) (j : Job)
    (h : jsearchItem item = .ok (some j)) :
    j.title ≠ "" ∧ j.company ≠ "" ∧ j.url ≠ "" ∧ j.source = "JSearch" ∧
    (jsearchLocFalsy item = true → j.location = "Remote") := by
  cases item with
  | obj fs =>
    simp only [jsearchItem, Bind.bind, dictGet, dictGetD, except_bind_ok_left,
      except_bind_ok, Pure.pure, Except.pure] at h
    obtain ⟨title, hT, company, hC, location0, hL0, url, hU, h⟩ := h
    by_cases hskip : title = "" ∨ company = "" ∨ url = ""
    · rw [if_pos hskip] at h
      simp at h
    · rw [if_neg hskip] at h
      simp only [Except.ok.injEq, Option.some.injEq] at h
      push_neg at hskip
      obtain ⟨ht1, ht2, ht3⟩ := hskip
      subst h
      refine ⟨by simp only [mkJob]; exact ht1, by simp only [mkJob]; exact ht2,
        by simp only [mkJob]; exact ht3, rfl, ?_⟩
      intro hfalsy
      simp only [jsearchLocFalsy, Bool.and_eq_true, Bool.not_eq_true'] at hfalsy
      obtain ⟨⟨h1, h2⟩, h3⟩ := hfalsy
      rw [h1, h2, h3] at hL0
      simp only [Bool.false_eq_true, if_false, List.append_nil] at hL0
      unfold jsearchLocationStr at hL0
      simp only [List.isEmpty_nil, if_true, Except.ok.injEq] at hL0
      simp only [mkJob]
      rw [← hL0]
      decide
  | null => simp [jsearchItem, Bind.bind, dictGet, dictGetD, Except.bind] at h
  | bool b => simp [jsearchItem, Bind.bind, dictGet, dictGetD, Except.bind] at h
  | num n => simp [jsearchItem, Bind.bind, dictGet, dictGetD, Except.bind] at h
  | str s => simp [jsearchItem, Bind.bind, dictGet, dictGetD, Except.bind] at h
  | arr l => simp [jsearchItem, Bind.bind, dictGet, dictGetD, Except.bind] at h

theorem themuseItem_invariants (item : JValue) (j : Job)
    (h : themuseItem item = .ok (some j)) :
    j.title ≠ "" ∧ j.company ≠ "" ∧ j.url ≠ "" ∧ j.source = "TheMuse" ∧
    (themuseLocFalsy item = true → j.location = "Remote") := by
  cases item with
  | obj fs =>
    simp only [themuseItem, Bind.bind, dictGet, dictGetD, except_bind_ok_left,
      except_bind_ok, Pure.pure, Except.pure] at h
    obtain ⟨title, hT, nm, hNM, company, hC, locVal, hLV, location, hL, lp, hLP,
      url, hU, h⟩ := h
    by_cases hskip : title = "" ∨ company = "" ∨ url = ""
    · rw [if_pos hskip] at h
      simp at h
    · rw [if_neg hskip] at h
      simp only [Except.ok.injEq, Option.some.injEq] at h
      push_neg at hskip
      obtain ⟨ht1, ht2, ht3⟩ := hskip
      subst h
      refine ⟨by simp only [mkJob]; exact ht1, by simp only [mkJob]; exact ht2,
        by simp only [mkJob]; exact ht3, rfl, ?_⟩
      intro hfalsy
      simp only [themuseLocFalsy, Bool.not_eq_true'] at hfalsy
      unfold themuseLocVal at hLV
      rw [hfalsy] at hLV
      simp only [Bool.false_eq_true, if_false, Except.ok.injEq] at hLV
      rw [← hLV] at hL
      have h2 : Except.ok (ε := PyExc) (pyStripStr "Remote") = .ok location := hL
      have h3 : pyStripStr "Remote" = "Remote" := by decide
      rw [h3] at h2
      simp only [Except.ok.injEq] at h2
      simp only [mkJob]
      exact h2.symm
  | null => simp [themuseItem, Bind.bind, dictGet, dictGetD, Except.bind] at h
  | bool b => simp [themuseItem, Bind.bind, dictGet, dictGetD, Except.bind] at h
  | num n => simp [themuseItem, Bind.bind, dictGet, dictGetD, Except.bind] at h
  | str s => simp [themuseItem, Bind.bind, dictGet, dictGetD, Except.bind] at h
  | arr l => simp [themuseItem, Bind.bind, dictGet, dictGetD, Except.bind] at h

theorem usajobsItem_invariants (item : JValue) (j : Job)
    (h : usajobsItem item = .ok (some j)) :
    j.title ≠ "" ∧ j.url ≠ "" ∧ j.source = "USAJobs" ∧
    (usajobsOrgFalsy item = true → j.company = "US Government") ∧
    (usajobsLocFalsy item = true → j.location = "Remote") := by
  cases item with
  | obj fs =>
    simp only [usajobsItem, Bind.bind, dictGet, dictGetD, except_bind_ok_left,
      except_bind_ok, Pure.pure, Except.pure] at h
    obtain ⟨tRaw, hTR, title, hT, oc, hOC, compVal, hCV, company, hC, pl, hPL,
      locVal, hLV, location, hL, pu, hPU, urlVal, hUV, url, hU, h⟩ := h
    by_cases hskip : title = "" ∨ url = ""
    · rw [if_pos hskip] at h
      simp at h
    · rw [if_neg hskip] at h
      simp only [except_bind_ok, Except.ok.injEq, Option.some.injEq] at h
      obtain ⟨p, hP, h⟩ := h
      push_neg at hskip
      obtain ⟨ht1, ht3⟩ := hskip
      subst h
      refine ⟨by simp only [mkJob]; exact ht1, by simp only [mkJob]; exact ht3, rfl,
        ?_, ?_⟩
      · intro hfalsy
        cases hmo : (jLookup fs "MatchedObjectDescriptor").getD (.obj []) with
        | obj ms =>
          simp only [usajobsOrgFalsy, hmo, Bool.not_eq_true'] at hfalsy
          rw [hmo] at hOC
          simp only [hmo] at hTR hOC
          have hoc2 : oc = (jLookup ms "OrganizationCodes").getD (.arr []) := by
            simp only [Except.ok.injEq] at hOC
            exact hOC.symm
          unfold pyFirstOrDefault at hCV
          rw [hoc2, hfalsy] at hCV
          simp only [Bool.false_eq_true, if_false, Except.ok.injEq] at hCV
          rw [← hCV] at hC
          have h2 : Except.ok (ε := PyExc) (pyStripStr "US Government") = .ok company := hC
          have h3 : pyStripStr "US Government" = "US Government" := by decide
          rw [h3] at h2
          simp only [Except.ok.injEq] at h2
          simp only [mkJob]
          exact h2.symm
        | null => rw [usajobsOrgFalsy, hmo] at hfalsy; cases hfalsy
        | bool b => rw [usajobsOrgFalsy, hmo] at hfalsy; cases hfalsy
        | num n => rw [usajobsOrgFalsy, hmo] at hfalsy; cases hfalsy
        | str s => rw [usajobsOrgFalsy, hmo] at hfalsy; cases hfalsy
        | arr l => rw [usajobsOrgFalsy, hmo] at hfalsy; cases hfalsy
      · intro hfalsy
        cases hmo : (jLookup fs "MatchedObjectDescriptor").getD (.obj []) with
        | obj ms =>
          simp only [usajobsLocFalsy, hmo, Bool.not_eq_true'] at hfalsy
          rw [hmo] at hPL
          have hpl2 : pl = (jLookup ms "PositionLocationDisplay").getD (.arr []) := by
            simp only [Except.ok.injEq] at hPL
            exact hPL.symm
          unfold pyFirstOrDefault at hLV
          rw [hpl2, hfalsy] at hLV
          simp only [Bool.false_eq_true, if_false, Except.ok.injEq] at hLV
          rw [← hLV] at hL
          have h2 : Except.ok (ε := PyExc) (pyStripStr "Remote") = .ok location := hL
          have h3 : pyStripStr "Remote" = "Remote" := by decide
          rw [h3] at h2
          simp only [Except.ok.injEq] at h2
          simp only [mkJob]
          exact h2.symm
        | null => rw [usajobsLocFalsy, hmo] at hfalsy; cases hfalsy
        | bool b => rw [usajobsLocFalsy, hmo] at hfalsy; cases hfalsy
        | num n => rw [usajobsLocFalsy, hmo] at hfalsy; cases hfalsy
        | str s => rw [usajobsLocFalsy, hmo] at hfalsy; cases hfalsy
        | arr l => rw [usajobsLocFalsy, hmo] at hfalsy; cases hfalsy
  | null => simp [usajobsItem, Bind.bind, dictGet, dictGetD, Except.bind] at h
  | bool b => simp [usajobsItem, Bind.bind, dictGet, dictGetD, Except.bind] at h
  | num n => simp [usajobsItem, Bind.bind, dictGet, dictGetD, Except.bind] at h
  | str s => simp [usajobsItem, Bind.bind, dictGet, dictGetD, Except.bind] at h
  | arr l => simp [usajobsItem, Bind.bind, dictGet, dictGetD, Except.bind] at h

end JobAgg

namespace JobAgg

theorem processItems_mem (f : JValue → Except PyExc (Option Job)) (P : Job → Prop)
    (hf : ∀ item j, f item = .ok (some j) → P j) :
    ∀ (items : List JValue) (l : List Job), processItems f items = .ok l → ∀ j ∈ l, P j := by
  intro items
  induction items with
  | nil =>
    intro l h j hj
    simp only [processItems, Except.ok.injEq] at h
    subst h
    cases hj
  | cons x xs ih =>
    intro l h j hj
    simp only [processItems, Bind.bind, except_bind_ok, Pure.pure, Except.pure] at h
    obtain ⟨r, hr, rest, hrest, h⟩ := h
    cases r with
    | none =>
      simp only [Except.ok.injEq] at h
      subst h
      exact ih rest hrest j hj
    | some jb =>
      simp only [Except.ok.injEq] at h
      subst h
      rcases List.mem_cons.mp hj with rfl | hj2
      · exact hf x j hr
      · exact ih rest hrest j hj2

theorem listKeyPayload_mem (key : String) (itemF : JValue → Except PyExc (Option Job))
    (P : Job → Prop) (hf : ∀ item j, itemF item = .ok (some j) → P j) :
    ∀ (payload : JValue) (l : List Job),
      listKeyPayloadJobs key itemF payload = .ok l → ∀ j ∈ l, P j := by
  intro payload l h j hj
  unfold listKeyPayloadJobs at h
  simp only [Bind.bind, except_bind_ok] at h
  obtain ⟨v, hv, elems, helems, h⟩ := h
  exact processItems_mem itemF P hf elems l h j hj

theorem usajobsPayload_mem (P : Job → Prop)
    (hf : ∀ item j, usajobsItem item = .ok (some j) → P j) :
    ∀ (payload : JValue) (l : List Job),
      usajobsPayloadJobs payload = .ok l → ∀ j ∈ l, P j := by
  intro payload l h j hj
  unfold usajobsPayloadJobs at h
  simp only [Bind.bind, except_bind_ok] at h
  obtain ⟨sr, hsr, v, hv, elems, helems, h⟩ := h
  exact processItems_mem usajobsItem P hf elems l h j hj

theorem handleResponse_mem (o : HttpOutcome) (parse : JValue → Except PyExc (List Job))
    (P : Job → Prop)
    (hp : ∀ payload l, parse payload = .ok l → ∀ j ∈ l, P j) :
    ∀ l, handleResponse o parse = .ok l → ∀ j ∈ l, P j := by
  intro l h j hj
  cases o with
  | transportError =>
    simp only [handleResponse, Except.ok.injEq] at h
    subst h
    cases hj
  | httpStatusError =>
    simp only [handleResponse, Except.ok.injEq] at h
    subst h
    cases hj
  | success b =>
    cases b with
    | none => simp [handleResponse] at h
    | some payload => exact hp payload l h j hj

/-- C9: every record any of the six adapters can emit (for any HTTP response)
has a non-empty title and url and carries the provider's fixed source name;
all providers except USAJobs also guarantee a non-empty company (items lacking
these fields are skipped before a record is built); the USAJobs company
defaults to "US Government" when `OrganizationCodes` is absent or falsy, and
each provider's location defaults to "Remote" when its location fields are
absent (or falsy). -/
theorem adapter_record_invariants :
    (∀ (env : Env) (l : List Job), (fetchRemotiveJobs env).result = .ok l → ∀ j ∈ l,
      j.title ≠ "" ∧ j.company ≠ "" ∧ j.url ≠ "" ∧ j.source = "Remotive") ∧
    (∀ (env : Env) (l : List Job), (fetchAdzunaJobs env).result = .ok l → ∀ j ∈ l,
      j.title ≠ "" ∧ j.company ≠ "" ∧ j.url ≠ "" ∧ j.source = "Adzuna") ∧
    (∀ (env : Env) (l : List Job), (fetchJsearchJobs env).result = .ok l → ∀ j ∈ l,
      j.title ≠ "" ∧ j.company ≠ "" ∧ j.url ≠ "" ∧ j.source = "JSearch") ∧
    (∀ (env : Env) (l : List Job), (fetchCareerjetJobs env).result = .ok l → ∀ j ∈ l,
      j.title ≠ "" ∧ j.company ≠ "" ∧ j.url ≠ "" ∧ j.source = "Careerjet") ∧
    (∀ (env : Env) (l : List Job), (fetchThemuseJobs env).result = .ok l → ∀ j ∈ l,
      j.title ≠ "" ∧ j.company ≠ "" ∧ j.url ≠ "" ∧ j.source = "TheMuse") ∧
    (∀ (env : Env) (l : List Job), (fetchUsajobs env).result = .ok l → ∀ j ∈ l,
      j.title ≠ "" ∧ j.url ≠ "" ∧ j.source = "USAJobs") ∧
    (∀ (item : JValue) (j : Job), usajobsItem item = .ok (some j) →
      usajobsOrgFalsy item = true → j.company = "US Government") ∧
    (∀ (item : JValue) (j : Job), remotiveItem item = .ok (some j) →
      remotiveLocFalsy item = true → j.location = "Remote") ∧
    (∀ (item : JValue) (j : Job), adzunaItem item = .ok (some j) →
      adzunaLocAbsent item = true → j.location = "Remote") ∧
    (∀ (item : JValue) (j : Job), jsearchItem item = .ok (some j) →
      jsearchLocFalsy item = true → j.location = "Remote") ∧
    (∀ (item : JValue) (j : Job), careerjetItem item = .ok (some j) →
      careerjetLocFalsy item = true → j.location = "Remote") ∧
    (∀ (item : JValue) (j : Job), themuseItem item = .ok (some j) →
      themuseLocFalsy item = true → j.location = "Remote") ∧
    (∀ (item : JValue) (j : Job), usajobsItem item = .ok (some j) →
      usajobsLocFalsy item = true → j.location = "Remote") := by
  refine ⟨?_, ?_, ?_, ?_, ?_, ?_, ?_, ?_, ?_, ?_, ?_, ?_, ?_⟩
  · intro env l h j hj
    have := handleResponse_mem env.remotiveResp (listKeyPayloadJobs "jobs" remotiveItem)
      (fun j => j.title ≠ "" ∧ j.company ≠ "" ∧ j.url ≠ "" ∧ j.source = "Remotive")
      (listKeyPayload_mem _ _ _ fun item j hi =>
        (remotiveItem_invariants item j hi).imp id (fun c => c.imp id (fun c => c.imp id
          And.left))) l h j hj
    exact this
  · intro env l h j hj
    unfold fetchAdzunaJobs at h
    split at h
    · simp only [Except.ok.injEq] at h
      subst h
      cases hj
    · exact handleResponse_mem env.adzunaResp (listKeyPayloadJobs "results" adzunaItem)
        (fun j => j.title ≠ "" ∧ j.company ≠ "" ∧ j.url ≠ "" ∧ j.source = "Adzuna")
        (listKeyPayload_mem _ _ _ fun item j hi =>
          have hv := adzunaItem_invariants item j hi
          ⟨hv.1, hv.2.1, hv.2.2.1, hv.2.2.2.1⟩) l h j hj
  · intro env l h j hj
    unfold fetchJsearchJobs at h
    split at h
    · simp only [Except.ok.injEq] at h
      subst h
      cases hj
    · exact handleResponse_mem env.jsearchResp (listKeyPayloadJobs "data" jsearchItem)
        (fun j => j.title ≠ "" ∧ j.company ≠ "" ∧ j.url ≠ "" ∧ j.source = "JSearch")
        (listKeyPayload_mem _ _ _ fun item j hi =>
          have hv := jsearchItem_invariants item j hi
          ⟨hv.1, hv.2.1, hv.2.2.1, hv.2.2.2.1⟩) l h j hj
  · intro env l h j hj
    unfold fetchCareerjetJobs at h
    split at h
    · simp only [Except.ok.injEq] at h
      subst h
      cases hj
    · exact handleResponse_mem env.careerjetResp (listKeyPayloadJobs "jobs" careerjetItem)
        (fun j => j.title ≠ "" ∧ j.company ≠ "" ∧ j.url ≠ "" ∧ j.source = "Careerjet")
        (listKeyPayload_mem _ _ _ fun item j hi =>
          have hv := careerjetItem_invariants item j hi
          ⟨hv.1, hv.2.1, hv.2.2.1, hv.2.2.2.1⟩) l h j hj
  · intro env l h j hj
    unfold fetchThemuseJobs at h
    split at h
    · simp only [Except.ok.injEq] at h
      subst h
      cases hj
    · exact handleResponse_mem env.themuseResp (listKeyPayloadJobs "results" themuseItem)
        (fun j => j.title ≠ "" ∧ j.company ≠ "" ∧ j.url ≠ "" ∧ j.source = "TheMuse")
        (listKeyPayload_mem _ _ _ fun item j hi =>
          have hv := themuseItem_invariants item j hi
          ⟨hv.1, hv.2.1, hv.2.2.1, hv.2.2.2.1⟩) l h j hj
  · intro env l h j hj
    exact handleResponse_mem env.usajobsResp usajobsPayloadJobs
      (fun j => j.title ≠ "" ∧ j.url ≠ "" ∧ j.source = "USAJobs")
      (usajobsPayload_mem _ fun item j hi =>
        have hv := usajobsItem_invariants item j hi
        ⟨hv.1, hv.2.1, hv.2.2.1⟩) l h j hj
  · intro item j hi
    exact (usajobsItem_invariants item j hi).2.2.2.1
  · intro item j hi
    exact (remotiveItem_invariants item j hi).2.2.2.2
  · intro item j hi
    exact (adzunaItem_invariants item j hi).2.2.2.2
  · intro item j hi
    exact (jsearchItem_invariants item j hi).2.2.2.2
  · intro item j hi
    exact (careerjetItem_invariants item j hi).2.2.2.2
  · intro item j hi
    exact (themuseItem_invariants item j hi).2.2.2.2
  · intro item j hi
    exact (usajobsItem_invariants item j hi).2.2.2.2

theorem adapter_record_invariants_witness :
    (remotiveJobW.title ≠ "" ∧ remotiveJobW.company ≠ "" ∧ remotiveJobW.url ≠ "" ∧
      remotiveJobW.source = "Remotive") ∧
    usajobsJobW.company = "US Government" ∧ usajobsJobW.location = "Remote" ∧
    (adzunaJobW.title ≠ "" ∧ adzunaJobW.company ≠ "" ∧ adzunaJobW.url ≠ "" ∧
      adzunaJobW.source = "Adzuna") ∧
    (jsearchJobW.title ≠ "" ∧ jsearchJobW.company ≠ "" ∧ jsearchJobW.url ≠ "" ∧
      jsearchJobW.source = "JSearch") ∧
    (careerjetJobW.title ≠ "" ∧ careerjetJobW.company ≠ "" ∧ careerjetJobW.url ≠ "" ∧
      careerjetJobW.source = "Careerjet") ∧
    careerjetJobW.location = "Remote" ∧
    (themuseJobW.title ≠ "" ∧ themuseJobW.company ≠ "" ∧ themuseJobW.url ≠ "" ∧
      themuseJobW.source = "TheMuse") ∧
    themuseJobW.location = "Remote" ∧
    (usajobsJobW.title ≠ "" ∧ usajobsJobW.url ≠ "" ∧ usajobsJobW.source = "USAJobs") :=
  ⟨adapter_record_invariants.1
     { envAllFail with
       remotiveResp := HttpOutcome.success (some (JValue.obj [("jobs", JValue.arr [remotiveItemW])])) }
     [remotiveJobW] (by decide) remotiveJobW (by decide),
   adapter_record_invariants.2.2.2.2.2.2.1 usajobsItemW usajobsJobW (by decide) (by decide),
   adapter_record_invariants.2.2.2.2.2.2.2.2.2.2.2.2 usajobsItemW usajobsJobW (by decide)
     (by decide),
   adapter_record_invariants.2.1
     { envAllFail with
       adzunaResp := HttpOutcome.success (some (JValue.obj [("results", JValue.arr [adzunaItemW])])),
       adzunaAppId := some "id",
       adzunaAppKey := some "key" }
     [adzunaJobW] (by decide) adzunaJobW (by decide),
   adapter_record_invariants.2.2.1
     { envAllFail with
       jsearchResp := HttpOutcome.success (some (JValue.obj [("data", JValue.arr [jsearchItemW])])),
       rapidapiKey := some "k" }
     [jsearchJobW] (by decide) jsearchJobW (by decide),
   adapter_record_invariants.2.2.2.1
     { envAllFail with
       careerjetResp := HttpOutcome.success (some (JValue.obj [("jobs", JValue.arr [careerjetItemW])])),
       careerjetAffid := some "a" }
     [careerjetJobW] (by decide) careerjetJobW (by decide),
   adapter_record_invariants.2.2.2.2.2.2.2.2.2.2.1 careerjetItemW careerjetJobW (by decide)
     (by decide),
   adapter_record_invariants.2.2.2.2.1
     { envAllFail with
       themuseResp := HttpOutcome.success (some (JValue.obj [("results", JValue.arr [themuseItemW])])),
       themuseApiKey := some "t" }
     [themuseJobW] (by decide) themuseJobW (by decide),
   adapter_record_invariants.2.2.2.2.2.2.2.2.2.2.2.1 themuseItemW themuseJobW (by decide)
     (by decide),
   adapter_record_invariants.2.2.2.2.2.1
     { envAllFail with
       usajobsResp := HttpOutcome.success (some (JValue.obj [("SearchResult", JValue.obj [("SearchResultItems", JValue.arr [usajobsItemW])])])) }
     [usajobsJobW] (by decide) usajobsJobW (by decide)⟩

end JobAgg
